import Mathlib

/-!
Verification of the creative-customer-profile-generator repository.

The repository is a React multi-step wizard (`CustomerProfileGenerator`,
src/unnamed/part_000) that collects four free-text business inputs, calls an
external structured-generation service, and renders, saves and exports the
resulting customer profile.

Shallow embedding choices:
* JavaScript strings are modelled as `List Char` (Unicode scalar values; the
  UTF-16 lone-surrogate corner of JS strings is not representable and not
  relevant to any claim here).
* The component's `useState` cell block is one record, `AppState`;
  the event handlers become a step function over an `Action` type.
* `localStorage` is a function from keys to optional stored strings.
* `JSON.stringify` / `JSON.parse` are implemented as an executable printer
  and an executable (fuel-indexed) parser over a JSON value type, and their
  round-trip behaviour is proved, so that export/persistence claims can be
  settled at the level of actual serialized text.
-/

namespace CPG

/-- Characters removed by JavaScript `String.prototype.trim` (WhiteSpace and
LineTerminator productions). -/
def jsWsB (c : Char) : Bool :=
  c = ' ' || c = '\t' || c = '\n' || c = '\r' ||
  c.toNat = 11 || c.toNat = 12 || c.toNat = 160 || c.toNat = 0x1680 ||
  (0x2000 ≤ c.toNat && c.toNat ≤ 0x200a) ||
  c.toNat = 0x2028 || c.toNat = 0x2029 || c.toNat = 0x202f ||
  c.toNat = 0x205f || c.toNat = 0x3000 || c.toNat = 0xfeff

/-- Leading-whitespace removal, as in JS `trimStart`. -/
def trimLeft (s : List Char) : List Char := s.dropWhile jsWsB

/-- Trailing-whitespace removal, as in JS `trimEnd`. -/
def trimRight (s : List Char) : List Char := (s.reverse.dropWhile jsWsB).reverse

/-- JavaScript `String.prototype.trim` on character lists. -/
def jsTrim (s : List Char) : List Char := trimLeft (trimRight s)

/-- JavaScript `a || b` specialised to strings: the empty string is the only
falsy string, so `a || b` is `b` exactly when `a` is empty. -/
def jsOr (a b : List Char) : List Char := if a = [] then b else a

/-- The double-quote character. -/
def dquote : Char := Char.ofNat 34

/-- The backslash character. -/
def bslash : Char := Char.ofNat 92

/-- The opening curly brace character. -/
def lbrace : Char := Char.ofNat 123

/-- The closing curly brace character. -/
def rbrace : Char := Char.ofNat 125

mutual

/-- JSON values.  Numbers keep their source lexeme: the program under
verification never computes with JSON numbers (every field of its records is
a string), numbers can only appear in adversarial `localStorage` content, and
there only parse success/failure and propagation matter. -/
inductive Json where
  | str : List Char → Json
  | num : List Char → Json
  | bool : Bool → Json
  | null : Json
  | arr : JsonList → Json
  | obj : JsonObj → Json

/-- A list of JSON values (the elements of a JSON array). -/
inductive JsonList where
  | nil : JsonList
  | cons : Json → JsonList → JsonList

/-- The key/value entries of a JSON object, in insertion order. -/
inductive JsonObj where
  | nil : JsonObj
  | cons : List Char → Json → JsonObj → JsonObj

end

mutual

/-- Decidable equality of JSON values. -/
def Json.beq : Json → Json → Bool
  | .str a, .str b => a = b
  | .num a, .num b => a = b
  | .bool a, .bool b => a = b
  | .null, .null => true
  | .arr a, .arr b => JsonList.beq a b
  | .obj a, .obj b => JsonObj.beq a b
  | _, _ => false

/-- Decidable equality of JSON value lists. -/
def JsonList.beq : JsonList → JsonList → Bool
  | .nil, .nil => true
  | .cons x xs, .cons y ys => Json.beq x y && JsonList.beq xs ys
  | _, _ => false

/-- Decidable equality of JSON object entry lists. -/
def JsonObj.beq : JsonObj → JsonObj → Bool
  | .nil, .nil => true
  | .cons k v o, .cons k2 v2 o2 => k = k2 && Json.beq v v2 && JsonObj.beq o o2
  | _, _ => false

end

/-- Conversion of an ordinary list of JSON values into a `JsonList`. -/
def JsonList.ofList : List Json → JsonList
  | [] => .nil
  | x :: xs => .cons x (JsonList.ofList xs)

/-- Concatenation of `JsonList`s. -/
def JsonList.appendL : JsonList → JsonList → JsonList
  | .nil, l => l
  | .cons x xs, l => .cons x (JsonList.appendL xs l)

/-- Length of a `JsonList`. -/
def JsonList.lengthL : JsonList → Nat
  | .nil => 0
  | .cons _ xs => JsonList.lengthL xs + 1

mutual

/-- A JSON value contains no number literal.  Every value the program itself
serializes is built from strings, arrays and objects only, and the verified
printer/parser round trip is stated for such values. -/
def Json.numFree : Json → Bool
  | .str _ => true
  | .num _ => false
  | .bool _ => true
  | .null => true
  | .arr l => JsonList.numFreeL l
  | .obj o => JsonObj.numFreeO o

/-- `Json.numFree` on array elements. -/
def JsonList.numFreeL : JsonList → Bool
  | .nil => true
  | .cons x xs => Json.numFree x && JsonList.numFreeL xs

/-- `Json.numFree` on object entries. -/
def JsonObj.numFreeO : JsonObj → Bool
  | .nil => true
  | .cons _ v o => Json.numFree v && JsonObj.numFreeO o

end

mutual

/-- Fuel lower bound for reparsing a printed value: one unit per value plus
one per list node. -/
def Json.jsize : Json → Nat
  | .str _ => 1
  | .num _ => 1
  | .bool _ => 1
  | .null => 1
  | .arr l => 1 + JsonList.sizeElems l
  | .obj o => 1 + JsonObj.sizeEntries o

/-- `Json.jsize` accumulated over array elements. -/
def JsonList.sizeElems : JsonList → Nat
  | .nil => 0
  | .cons x xs => 1 + Json.jsize x + JsonList.sizeElems xs

/-- `Json.jsize` accumulated over object entries. -/
def JsonObj.sizeEntries : JsonObj → Nat
  | .nil => 0
  | .cons _ v o => 1 + Json.jsize v + JsonObj.sizeEntries o

end

/-- Lower-case hexadecimal digit for `n < 16`, as emitted by
`JSON.stringify` in `\u00XX` escapes. -/
def hexDigitChar (n : Nat) : Char :=
  if n < 10 then Char.ofNat (48 + n) else Char.ofNat (87 + n)

/-- The escaping `JSON.stringify` applies to one character of a string:
quote and backslash get a backslash escape, the named control characters get
their short escapes, the remaining control characters get `\u00XX`, and
everything else is emitted verbatim. -/
def escChar (c : Char) : List Char :=
  if c = dquote then [bslash, dquote]
  else if c = bslash then [bslash, bslash]
  else if c = Char.ofNat 8 then [bslash, 'b']
  else if c = Char.ofNat 12 then [bslash, 'f']
  else if c = '\n' then [bslash, 'n']
  else if c = '\r' then [bslash, 'r']
  else if c = '\t' then [bslash, 't']
  else if c.toNat < 32 then
    [bslash, 'u', '0', '0', hexDigitChar (c.toNat / 16), hexDigitChar (c.toNat % 16)]
  else [c]

/-- `escChar` extended to a whole string. -/
def escString : List Char → List Char
  | [] => []
  | c :: cs => escChar c ++ escString cs

mutual

/-- JSON serializer, parameterised by the inter-token whitespace so that it
covers both `JSON.stringify(v)` (no whitespace) and
`JSON.stringify(v, null, 2)` (two-space pretty printing).  `pre d` is the
separator emitted before an element at depth `d`, `pad` the separator after
the colon of an object entry. -/
def printGo (pre : Nat → List Char) (pad : List Char) : Json → Nat → List Char
  | .str s, _ => dquote :: (escString s ++ [dquote])
  | .num l, _ => l
  | .bool true, _ => "true".toList
  | .bool false, _ => "false".toList
  | .null, _ => "null".toList
  | .arr .nil, _ => "[]".toList
  | .arr (.cons x xs), d =>
      '[' :: (pre (d + 1) ++ printGo pre pad x (d + 1) ++
        printArrTail pre pad xs (d + 1) ++ pre d ++ [']'])
  | .obj .nil, _ => [lbrace, rbrace]
  | .obj (.cons k v os), d =>
      lbrace :: (pre (d + 1) ++ (dquote :: (escString k ++ [dquote])) ++
        ':' :: (pad ++ printGo pre pad v (d + 1) ++
          printObjTail pre pad os (d + 1) ++ pre d ++ [rbrace]))

/-- Serializer for the second and later elements of an array. -/
def printArrTail (pre : Nat → List Char) (pad : List Char) : JsonList → Nat → List Char
  | .nil, _ => []
  | .cons y ys, d =>
      ',' :: (pre d ++ printGo pre pad y d ++ printArrTail pre pad ys d)

/-- Serializer for the second and later entries of an object. -/
def printObjTail (pre : Nat → List Char) (pad : List Char) : JsonObj → Nat → List Char
  | .nil, _ => []
  | .cons k v os, d =>
      ',' :: (pre d ++ (dquote :: (escString k ++ [dquote])) ++
        ':' :: (pad ++ printGo pre pad v d ++ printObjTail pre pad os d))

end

/-- `JSON.stringify(v)`: no inter-token whitespace. -/
def printCompact (v : Json) : List Char := printGo (fun _ => []) [] v 0

/-- `JSON.stringify(v, null, 2)`: newline-plus-indent before every element,
one space after each colon. -/
def printPretty (v : Json) : List Char :=
  printGo (fun d => '\n' :: List.replicate (2 * d) ' ') [' '] v 0

/-- The insignificant-whitespace characters of the JSON grammar
(RFC 8259), as accepted between tokens by `JSON.parse`. -/
def isJsonWsB (c : Char) : Bool :=
  c = ' ' || c = '\t' || c = '\n' || c = '\r'

/-- Hex digit test for `\u` escapes. -/
def isHexDigitB (c : Char) : Bool :=
  (48 ≤ c.toNat && c.toNat ≤ 57) || (97 ≤ c.toNat && c.toNat ≤ 102) ||
    (65 ≤ c.toNat && c.toNat ≤ 70)

/-- Value of a hex digit. -/
def hexVal (c : Char) : Nat :=
  if 48 ≤ c.toNat && c.toNat ≤ 57 then c.toNat - 48
  else if 97 ≤ c.toNat && c.toNat ≤ 102 then c.toNat - 87
  else if 65 ≤ c.toNat && c.toNat ≤ 70 then c.toNat - 55
  else 0

/-- Prepend a character to the string being accumulated by
`parseStringBody`. -/
def consR (c : Char) : Option (List Char × List Char) → Option (List Char × List Char)
  | some (s, r) => some (c :: s, r)
  | none => none

/-- Parser for the body of a JSON string literal, after the opening quote:
consumes up to and including the closing quote, returning the decoded
characters and the remaining input.  Unescaped control characters and
invalid escapes are rejected, as by `JSON.parse`. -/
def parseStringBody : List Char → Option (List Char × List Char)
  | [] => none
  | c :: cs =>
    if c = dquote then some ([], cs)
    else if c = bslash then
      match cs with
      | [] => none
      | e :: cs2 =>
        if e = dquote then consR dquote (parseStringBody cs2)
        else if e = bslash then consR bslash (parseStringBody cs2)
        else if e = '/' then consR '/' (parseStringBody cs2)
        else if e = 'b' then consR (Char.ofNat 8) (parseStringBody cs2)
        else if e = 'f' then consR (Char.ofNat 12) (parseStringBody cs2)
        else if e = 'n' then consR '\n' (parseStringBody cs2)
        else if e = 'r' then consR '\r' (parseStringBody cs2)
        else if e = 't' then consR '\t' (parseStringBody cs2)
        else if e = 'u' then
          match cs2 with
          | h1 :: h2 :: h3 :: h4 :: cs3 =>
            if isHexDigitB h1 && isHexDigitB h2 && isHexDigitB h3 && isHexDigitB h4 then
              consR (Char.ofNat
                  (hexVal h1 * 4096 + hexVal h2 * 256 + hexVal h3 * 16 + hexVal h4))
                (parseStringBody cs3)
            else none
          | _ => none
        else none
    else if c.toNat < 32 then none
    else consR c (parseStringBody cs)

/-- Exponent part of a JSON number lexeme (possibly absent). -/
def numExpPart (sgn ip fp : List Char) (s : List Char) : Option (List Char × List Char) :=
  match s with
  | c :: r =>
    if c = 'e' || c = 'E' then
      match r with
      | c2 :: r2 =>
        if c2 = '+' || c2 = '-' then
          let ds := r2.takeWhile Char.isDigit
          if ds = [] then none
          else some (sgn ++ ip ++ fp ++ c :: c2 :: ds, r2.dropWhile Char.isDigit)
        else
          let ds := r.takeWhile Char.isDigit
          if ds = [] then none
          else some (sgn ++ ip ++ fp ++ c :: ds, r.dropWhile Char.isDigit)
      | [] => none
    else some (sgn ++ ip ++ fp, s)
  | [] => some (sgn ++ ip ++ fp, s)

/-- Fraction part of a JSON number lexeme (possibly absent). -/
def numFracPart (sgn ip : List Char) (s : List Char) : Option (List Char × List Char) :=
  match s with
  | c :: r =>
    if c = '.' then
      let ds := r.takeWhile Char.isDigit
      if ds = [] then none
      else numExpPart sgn ip ('.' :: ds) (r.dropWhile Char.isDigit)
    else numExpPart sgn ip [] s
  | [] => numExpPart sgn ip [] s

/-- Lexer for a JSON number (sign, integer part, optional fraction and
exponent), returning the lexeme and the remaining input. -/
def parseNumber (s : List Char) : Option (List Char × List Char) :=
  let p := match s with
    | c :: r => if c = '-' then (['-'], r) else (([] : List Char), s)
    | [] => ([], s)
  match p.2 with
  | c :: r =>
    if c = '0' then numFracPart p.1 ['0'] r
    else if c.isDigit then
      numFracPart p.1 (c :: r.takeWhile Char.isDigit) (r.dropWhile Char.isDigit)
    else none
  | [] => none

mutual

/-- Fuel-indexed parser for one JSON value, skipping leading insignificant
whitespace and leaving the input that follows the value. -/
def parseValue : Nat → List Char → Option (Json × List Char)
  | 0, _ => none
  | f + 1, s =>
    match s.dropWhile isJsonWsB with
    | [] => none
    | c :: cs =>
      if c = dquote then
        match parseStringBody cs with
        | some (t, r) => some (.str t, r)
        | none => none
      else if c = '[' then
        match cs.dropWhile isJsonWsB with
        | [] => none
        | c2 :: r2 =>
          if c2 = ']' then some (.arr .nil, r2)
          else
            match parseElems f (c2 :: r2) with
            | some (l, r) => some (.arr l, r)
            | none => none
      else if c = lbrace then
        match cs.dropWhile isJsonWsB with
        | [] => none
        | c2 :: r2 =>
          if c2 = rbrace then some (.obj .nil, r2)
          else
            match parseEntries f (c2 :: r2) with
            | some (o, r) => some (.obj o, r)
            | none => none
      else if c = 't' then
        match cs with
        | 'r' :: 'u' :: 'e' :: r => some (.bool true, r)
        | _ => none
      else if c = 'f' then
        match cs with
        | 'a' :: 'l' :: 's' :: 'e' :: r => some (.bool false, r)
        | _ => none
      else if c = 'n' then
        match cs with
        | 'u' :: 'l' :: 'l' :: r => some (.null, r)
        | _ => none
      else if c = '-' || c.isDigit then
        match parseNumber (c :: cs) with
        | some (t, r) => some (.num t, r)
        | none => none
      else none

/-- Fuel-indexed parser for the elements of a non-empty JSON array,
consuming the closing bracket. -/
def parseElems : Nat → List Char → Option (JsonList × List Char)
  | 0, _ => none
  | f + 1, s =>
    match parseValue f s with
    | none => none
    | some (v, r) =>
      match r.dropWhile isJsonWsB with
      | ',' :: r2 =>
        match parseElems f r2 with
        | some (l, r3) => some (.cons v l, r3)
        | none => none
      | ']' :: r2 => some (.cons v .nil, r2)
      | _ => none

/-- Fuel-indexed parser for the entries of a non-empty JSON object,
consuming the closing brace. -/
def parseEntries : Nat → List Char → Option (JsonObj × List Char)
  | 0, _ => none
  | f + 1, s =>
    match s.dropWhile isJsonWsB with
    | [] => none
    | c :: cs =>
      if c = dquote then
        match parseStringBody cs with
        | none => none
        | some (k, r) =>
          match r.dropWhile isJsonWsB with
          | ':' :: r2 =>
            match parseValue f r2 with
            | none => none
            | some (v, r3) =>
              match r3.dropWhile isJsonWsB with
              | ',' :: r4 =>
                match parseEntries f r4 with
                | some (o, r5) => some (.cons k v o, r5)
                | none => none
              | c4 :: r4 => if c4 = rbrace then some (.cons k v .nil, r4) else none
              | [] => none
          | _ => none
      else none

end

/-- `JSON.parse`: parse one value and require only whitespace to follow;
`none` models a thrown `SyntaxError`. -/
def parseJson (s : List Char) : Option Json :=
  match parseValue (s.length + 1) s with
  | some (v, r) => if (r.dropWhile isJsonWsB).isEmpty then some v else none
  | none => none

/-! ## Data model (src/unnamed/part_000, interfaces at lines 14-57) -/

/-- The `demographics` section of a `CustomerProfile`. -/
structure Demographics where
  ageRange : List Char
  gender : List Char
  location : List Char
  income : List Char
  education : List Char
deriving DecidableEq

/-- The `psychographics` section of a `CustomerProfile`. -/
structure Psychographics where
  values : List (List Char)
  interests : List (List Char)
  lifestyle : List Char
  personality : List Char
deriving DecidableEq

/-- The `buyingBehavior` section of a `CustomerProfile`. -/
structure BuyingBehavior where
  decisionFactors : List (List Char)
  purchaseProcess : List Char
  budget : List Char
deriving DecidableEq

/-- The `CustomerProfile` interface: the fixed shape declared both as the
TypeScript type and as the output schema of the generation request.  A value
of this type is by construction an object satisfying the declared schema. -/
structure CustomerProfile where
  demographics : Demographics
  psychographics : Psychographics
  painPoints : List (List Char)
  motivations : List (List Char)
  goals : List (List Char)
  communicationChannels : List (List Char)
  buyingBehavior : BuyingBehavior
deriving DecidableEq

/-- The `ExampleTemplate` interface. -/
structure ExampleTemplate where
  id : List Char
  title : List Char
  description : List Char
  vision : List Char
  mission : List Char
  business : List Char
  target : List Char
deriving DecidableEq

/-- The `EXAMPLE_TEMPLATES` constant (descriptions abridged to the fields the
wizard consumes are kept verbatim; all seven fields are kept verbatim). -/
def EXAMPLE_TEMPLATES : List ExampleTemplate :=
  [⟨"creative-agency".toList, "Creative Design Agency".toList,
    "A boutique design agency focusing on brand identity".toList,
    "To become the go-to creative partner for innovative brands worldwide".toList,
    "We help businesses tell their story through compelling visual design and strategic branding".toList,
    "We are a full-service creative agency specializing in brand identity, web design, and marketing materials. We work with startups and established businesses to create memorable brand experiences.".toList,
    "Small to medium businesses, startups, entrepreneurs who value good design and want to stand out in their market".toList⟩,
   ⟨"wellness-coach".toList, "Wellness & Life Coach".toList,
    "Personal coaching for holistic wellness".toList,
    "To empower individuals to live their most authentic and fulfilling lives".toList,
    "We guide people through transformative wellness journeys using holistic approaches to mind, body, and spirit".toList,
    "I offer one-on-one coaching sessions, group workshops, and online courses focused on stress management, mindfulness, nutrition, and personal development.".toList,
    "Busy professionals, women in their 30s-50s, people going through life transitions, health-conscious individuals".toList⟩,
   ⟨"tech-startup".toList, "SaaS Tech Startup".toList,
    "B2B software solution for productivity".toList,
    "To revolutionize how teams collaborate and manage projects".toList,
    "We build intuitive software tools that help teams work smarter, not harder".toList,
    "We develop cloud-based project management and collaboration software for remote and hybrid teams. Our platform integrates with popular tools and focuses on simplicity and user experience.".toList,
    "Remote teams, project managers, small to medium businesses, tech-savvy professionals, startups".toList⟩]

/-- The client-side metadata the component computes at save time from the
clock (`Date.now().toString()`, `Profile ${date}`, `toISOString()`); passed
in as a parameter since the embedding has no clock. -/
structure SaveMeta where
  id : List Char
  profileName : List Char
  createdAt : List Char
deriving DecidableEq

/-- The browser `localStorage`, restricted to the string entries this
component touches. -/
def Store : Type := List Char → Option (List Char)

/-- Update of one `localStorage` entry (`localStorage.setItem`). -/
def storeSet (st : Store) (k v : List Char) : Store :=
  fun k2 => if k2 = k then some v else st k2

/-- The `useState` cells of `CustomerProfileGenerator` (lines 90-99), plus
the `user.id` prop and the ambient `localStorage`. -/
structure AppState where
  step : Nat
  visionStatement : List Char
  missionStatement : List Char
  businessDescription : List Char
  targetMarket : List Char
  isGenerating : Bool
  customerProfile : Option CustomerProfile
  savedProfiles : Json
  isSaving : Bool
  showTemplates : Bool
  userId : List Char
  store : Store

/-- Component state at mount for a given user and `localStorage` content:
step 1, four empty inputs, no profile, no saved-profile cache. -/
def initState (uid : List Char) (st : Store) : AppState :=
  { step := 1, visionStatement := [], missionStatement := [],
    businessDescription := [], targetMarket := [],
    isGenerating := false, customerProfile := none,
    savedProfiles := Json.arr .nil, isSaving := false, showTemplates := false,
    userId := uid, store := st }

/-- The per-user storage key `profiles_${user.id}` (line 112/139). -/
def profilesKey (uid : List Char) : List Char := "profiles_".toList ++ uid

/-- `loadSavedProfiles` (lines 109-119): read the user's storage entry; if it
exists and `JSON.parse` succeeds the parsed value is put in `savedProfiles`
(the code applies no shape check to it); a missing entry or a parse failure
(the thrown `SyntaxError` is caught and logged) leaves the state unchanged. -/
def loadSavedProfiles (s : AppState) : AppState :=
  match s.store (profilesKey s.userId) with
  | none => s
  | some raw =>
    match parseJson raw with
    | some v => { s with savedProfiles := v }
    | none => s

/-- JSON encoding of a `CustomerProfile`, with keys in the order declared by
the interface and the generation schema. -/
def encodeProfile (p : CustomerProfile) : Json :=
  Json.obj (.cons ("demographics".toList)
    (Json.obj (.cons ("ageRange".toList) (Json.str p.demographics.ageRange)
      (.cons ("gender".toList) (Json.str p.demographics.gender)
      (.cons ("location".toList) (Json.str p.demographics.location)
      (.cons ("income".toList) (Json.str p.demographics.income)
      (.cons ("education".toList) (Json.str p.demographics.education) .nil))))))
    (.cons ("psychographics".toList)
      (Json.obj (.cons ("values".toList)
          (Json.arr (JsonList.ofList (p.psychographics.values.map Json.str)))
        (.cons ("interests".toList)
          (Json.arr (JsonList.ofList (p.psychographics.interests.map Json.str)))
        (.cons ("lifestyle".toList) (Json.str p.psychographics.lifestyle)
        (.cons ("personality".toList) (Json.str p.psychographics.personality) .nil)))))
    (.cons ("painPoints".toList)
      (Json.arr (JsonList.ofList (p.painPoints.map Json.str)))
    (.cons ("motivations".toList)
      (Json.arr (JsonList.ofList (p.motivations.map Json.str)))
    (.cons ("goals".toList)
      (Json.arr (JsonList.ofList (p.goals.map Json.str)))
    (.cons ("communicationChannels".toList)
      (Json.arr (JsonList.ofList (p.communicationChannels.map Json.str)))
    (.cons ("buyingBehavior".toList)
      (Json.obj (.cons ("decisionFactors".toList)
          (Json.arr (JsonList.ofList (p.buyingBehavior.decisionFactors.map Json.str)))
        (.cons ("purchaseProcess".toList) (Json.str p.buyingBehavior.purchaseProcess)
        (.cons ("budget".toList) (Json.str p.buyingBehavior.budget) .nil))))
     .nil)))))))

/-- The `profileData` object literal built by `saveProfile` (lines 126-135),
with keys in insertion order. -/
def encodeRecord (m : SaveMeta) (s : AppState) (p : CustomerProfile) : Json :=
  Json.obj (.cons ("id".toList) (Json.str m.id)
    (.cons ("profileName".toList) (Json.str m.profileName)
    (.cons ("visionStatement".toList) (Json.str s.visionStatement)
    (.cons ("missionStatement".toList) (Json.str s.missionStatement)
    (.cons ("businessDescription".toList) (Json.str s.businessDescription)
    (.cons ("targetMarket".toList) (Json.str s.targetMarket)
    (.cons ("customerProfile".toList) (encodeProfile p)
    (.cons ("createdAt".toList) (Json.str m.createdAt) .nil))))))))

/-- `saveProfile` (lines 121-145).  A missing profile returns before
`setIsSaving(true)`.  Otherwise `updated = [...savedProfiles, profileData]`
is stored under the user's key as `JSON.stringify(updated)` and cached in
`savedProfiles`.  If the cached `savedProfiles` is not an array, the spread
throws, the `catch` swallows the error and nothing is written (the
string-iterable corner of the JS spread, which would scatter characters, is
modelled as this error path as well; it is unreachable from states whose
cache was written by this component). -/
def saveProfile (m : SaveMeta) (s : AppState) : AppState :=
  match s.customerProfile with
  | none => s
  | some p =>
    match s.savedProfiles with
    | Json.arr l =>
      let updated := Json.arr (JsonList.appendL l
        (.cons (encodeRecord m s p) .nil))
      { s with savedProfiles := updated,
               store := storeSet s.store (profilesKey s.userId) (printCompact updated),
               isSaving := false }
    | _ => { s with isSaving := false }

/-- A triggered browser download: the `a.download` filename and the blob
content. -/
structure Download where
  filename : List Char
  content : List Char
deriving DecidableEq

/-- The `exportData` object of `handleExportJSON` (lines 227-236): the
current timestamp, the four business inputs verbatim, and the profile. -/
def exportData (now : List Char) (s : AppState) (p : CustomerProfile) : Json :=
  Json.obj (.cons ("generatedAt".toList) (Json.str now)
    (.cons ("businessInfo".toList)
      (Json.obj (.cons ("visionStatement".toList) (Json.str s.visionStatement)
        (.cons ("missionStatement".toList) (Json.str s.missionStatement)
        (.cons ("businessDescription".toList) (Json.str s.businessDescription)
        (.cons ("targetMarket".toList) (Json.str s.targetMarket) .nil)))))
    (.cons ("customerProfile".toList) (encodeProfile p) .nil)))

/-- `handleExportJSON` (lines 224-247): no-op without a profile, otherwise a
download of `JSON.stringify(exportData, null, 2)` as
`customer-profile.json`.  `now` stands for `new Date().toISOString()`. -/
def handleExportJSON (now : List Char) (s : AppState) : Option Download :=
  match s.customerProfile with
  | none => none
  | some p => some ⟨"customer-profile.json".toList, printPretty (exportData now s p)⟩

/-- `join(', ')` over a list of strings. -/
def joinComma (l : List (List Char)) : List Char :=
  List.intercalate (", ".toList) l

/-- `map(x => ` followed by a bullet `• ${x}`, then `join('\n')`. -/
def bullets (l : List (List Char)) : List Char :=
  List.intercalate ("\n".toList) (l.map (fun x => ("• ".toList) ++ x))

/-- The template literal of `handleExportText` (lines 252-293) before the
final `.trim()`; `today` stands for `new Date().toLocaleDateString()`.  The
string is spelled as a concatenation split at the section headers, which is
literally the same string. -/
def textBody (today : List Char) (s : AppState) (p : CustomerProfile) : List Char :=
  ("\n".toList) ++ ("CUSTOMER PROFILE REPORT".toList) ++
  ("\nGenerated: ".toList) ++ today ++
  ("\n\n".toList) ++ ("BUSINESS INFORMATION".toList) ++
  ("\nVision Statement: ".toList) ++ s.visionStatement ++
  ("\nMission Statement: ".toList) ++ s.missionStatement ++
  ("\nBusiness Description: ".toList) ++ s.businessDescription ++
  ("\nTarget Market: ".toList) ++ jsOr s.targetMarket ("Not specified".toList) ++
  ("\n\n".toList) ++ ("CUSTOMER PROFILE".toList) ++
  ("\n\n".toList) ++ ("DEMOGRAPHICS".toList) ++
  ("\nAge Range: ".toList) ++ p.demographics.ageRange ++
  ("\nGender: ".toList) ++ p.demographics.gender ++
  ("\nLocation: ".toList) ++ p.demographics.location ++
  ("\nIncome Level: ".toList) ++ p.demographics.income ++
  ("\nEducation: ".toList) ++ p.demographics.education ++
  ("\n\n".toList) ++ ("PSYCHOGRAPHICS".toList) ++
  ("\nValues: ".toList) ++ joinComma p.psychographics.values ++
  ("\nInterests: ".toList) ++ joinComma p.psychographics.interests ++
  ("\nLifestyle: ".toList) ++ p.psychographics.lifestyle ++
  ("\nPersonality: ".toList) ++ p.psychographics.personality ++
  ("\n\n".toList) ++ ("PAIN POINTS".toList) ++
  ("\n".toList) ++ bullets p.painPoints ++
  ("\n\n".toList) ++ ("MOTIVATIONS".toList) ++
  ("\n".toList) ++ bullets p.motivations ++
  ("\n\n".toList) ++ ("GOALS".toList) ++
  ("\n".toList) ++ bullets p.goals ++
  ("\n\n".toList) ++ ("COMMUNICATION CHANNELS".toList) ++
  ("\n".toList) ++ joinComma p.communicationChannels ++
  ("\n\n".toList) ++ ("BUYING BEHAVIOR".toList) ++
  ("\nDecision Factors: ".toList) ++ joinComma p.buyingBehavior.decisionFactors ++
  ("\nPurchase Process: ".toList) ++ p.buyingBehavior.purchaseProcess ++
  ("\nBudget Range: ".toList) ++ p.buyingBehavior.budget ++
  ("\n    ".toList)

/-- The text report content: the template literal trimmed. -/
def textReport (today : List Char) (s : AppState) (p : CustomerProfile) : List Char :=
  jsTrim (textBody today s p)

/-- `handleExportText` (lines 249-304): no-op without a profile, otherwise a
download of the trimmed report as `customer-profile.txt`. -/
def handleExportText (today : List Char) (s : AppState) : Option Download :=
  match s.customerProfile with
  | none => none
  | some p => some ⟨"customer-profile.txt".toList, textReport today s p⟩

/-! ## The wizard as a state machine

The UI events of `CustomerProfileGenerator`.  Each action's guard is the
render/disabled condition under which the corresponding control can fire:
the step-1 card hosts the vision/mission textareas, the Continue button
(disabled while either trimmed statement is empty) and the template dialog;
the step-2 card hosts the description/target textareas, Back, and the
Generate button (disabled while the trimmed description is empty or a call
is in flight); the step-3 card (rendered only with a profile) hosts Save
(disabled while saving) and Start Over.  The asynchronous `handleGenerate`
is split into its synchronous prefix (`genStart`: `setIsGenerating(true)`)
and its resolution (`genSuccess`: `setCustomerProfile(object);
setStep(3)` plus the `finally`, or `genFail`: the `catch` plus the
`finally`), which can only occur while a call is outstanding. -/
inductive Action where
  | editVision : List Char → Action
  | editMission : List Char → Action
  | editBusiness : List Char → Action
  | editTarget : List Char → Action
  | setShowTemplates : Bool → Action
  | loadTemplate : ExampleTemplate → Action
  | continueDetails : Action
  | back : Action
  | reset : Action
  | genStart : Action
  | genSuccess : CustomerProfile → Action
  | genFail : Action
  | save : SaveMeta → Action
  | loadProfiles : Action

/-- One UI event applied to the component state. -/
def applyAction (s : AppState) : Action → AppState
  | .editVision v => if s.step = 1 then { s with visionStatement := v } else s
  | .editMission v => if s.step = 1 then { s with missionStatement := v } else s
  | .editBusiness v => if s.step = 2 then { s with businessDescription := v } else s
  | .editTarget v => if s.step = 2 then { s with targetMarket := v } else s
  | .setShowTemplates b => if s.step = 1 then { s with showTemplates := b } else s
  | .loadTemplate t =>
      if s.step = 1 then
        { s with visionStatement := t.vision, missionStatement := t.mission,
                 businessDescription := t.business, targetMarket := t.target,
                 showTemplates := false, step := 2 }
      else s
  | .continueDetails =>
      if s.step = 1 ∧ jsTrim s.visionStatement ≠ [] ∧ jsTrim s.missionStatement ≠ [] then
        { s with step := 2 }
      else s
  | .back => if s.step = 2 then { s with step := 1 } else s
  | .reset =>
      if s.step = 3 ∧ s.customerProfile.isSome then
        { s with step := 1, visionStatement := [], missionStatement := [],
                 businessDescription := [], targetMarket := [],
                 customerProfile := none }
      else s
  | .genStart =>
      if s.step = 2 ∧ jsTrim s.businessDescription ≠ [] ∧ s.isGenerating = false then
        { s with isGenerating := true }
      else s
  | .genSuccess p =>
      if s.isGenerating then
        { s with customerProfile := some p, step := 3, isGenerating := false }
      else s
  | .genFail => if s.isGenerating then { s with isGenerating := false } else s
  | .save m =>
      if s.step = 3 ∧ s.customerProfile.isSome ∧ s.isSaving = false then
        saveProfile m s
      else s
  | .loadProfiles => loadSavedProfiles s

/-- A run of the wizard: a sequence of UI events from a starting state. -/
def run (s : AppState) (acts : List Action) : AppState :=
  acts.foldl applyAction s

/-! ## Frame lemmas for the store operations -/

theorem saveProfile_step (m : SaveMeta) (s : AppState) :
    (saveProfile m s).step = s.step := by
  cases hc : s.customerProfile <;> cases hs : s.savedProfiles <;>
    simp [saveProfile, hc, hs]

theorem saveProfile_customerProfile (m : SaveMeta) (s : AppState) :
    (saveProfile m s).customerProfile = s.customerProfile := by
  cases hc : s.customerProfile <;> cases hs : s.savedProfiles <;>
    simp [saveProfile, hc, hs]

theorem loadSavedProfiles_step (s : AppState) :
    (loadSavedProfiles s).step = s.step := by
  unfold loadSavedProfiles
  cases hr : s.store (profilesKey s.userId) with
  | none => rfl
  | some raw => cases hp : parseJson raw <;> simp [hp]

theorem loadSavedProfiles_customerProfile (s : AppState) :
    (loadSavedProfiles s).customerProfile = s.customerProfile := by
  unfold loadSavedProfiles
  cases hr : s.store (profilesKey s.userId) with
  | none => rfl
  | some raw => cases hp : parseJson raw <;> simp [hp]

/-! ## Sample data shared by the concrete witnesses -/

/-- A schema-conforming profile used as a stub provider response. -/
def sampleProfile : CustomerProfile :=
  { demographics :=
      { ageRange := "25-34".toList, gender := "Any".toList,
        location := "Urban".toList, income := "Mid".toList,
        education := "BA".toList },
    psychographics :=
      { values := ["quality".toList], interests := ["design".toList],
        lifestyle := "busy".toList, personality := "curious".toList },
    painPoints := ["no time".toList],
    motivations := ["growth".toList],
    goals := ["scale up".toList],
    communicationChannels := ["email".toList],
    buyingBehavior :=
      { decisionFactors := ["price".toList],
        purchaseProcess := "short".toList, budget := "mid".toList } }

/-- An empty `localStorage`. -/
def emptyStore : Store := fun _ => none

/-- A state on the Details step with a non-blank description. -/
def sampleDetails : AppState :=
  { initState ("u1".toList) emptyStore with
      step := 2, visionStatement := "v".toList, missionStatement := "m".toList,
      businessDescription := "Design agency".toList }

/-- A Result-step state holding `sampleProfile`. -/
def sampleResult : AppState :=
  { sampleDetails with step := 3, customerProfile := some sampleProfile }

/-- Events reaching Result from scratch: fill step 1, continue, fill the
description, generate, succeed. -/
def demoActs : List Action :=
  [Action.editVision ("To inspire creativity".toList),
   Action.editMission ("We help people express themselves".toList),
   Action.continueDetails,
   Action.editBusiness ("Design agency for startups".toList),
   Action.genStart,
   Action.genSuccess sampleProfile]

/-! ## Claims about the wizard state machine -/

/-- Claim C1: a successful generation response (any value of the
schema-shaped `CustomerProfile` type), resolving a call started from the
Details step, moves the wizard to step 3 and stores exactly the returned
object in `customerProfile`. -/
theorem generation_success_reaches_result (s : AppState) (p : CustomerProfile)
    (h2 : s.step = 2) (hbd : jsTrim s.businessDescription ≠ [])
    (hg : s.isGenerating = false) :
    (applyAction (applyAction s .genStart) (.genSuccess p)).step = 3 ∧
    (applyAction (applyAction s .genStart) (.genSuccess p)).customerProfile = some p := by
  simp [applyAction, h2, hbd, hg]

/-- Witness for C1 at a concrete Details state and the sample profile. -/
theorem generation_success_reaches_result_witness :
    (applyAction (applyAction sampleDetails .genStart)
        (.genSuccess sampleProfile)).step = 3 ∧
    (applyAction (applyAction sampleDetails .genStart)
        (.genSuccess sampleProfile)).customerProfile = some sampleProfile :=
  generation_success_reaches_result sampleDetails sampleProfile rfl (by decide) rfl

/-- Claim C2: a failed generation call started from the Details step leaves
the wizard on step 2 with a still-null profile and `isGenerating` back at
`false`, and the generate trigger can fire again from the resulting state. -/
theorem generation_failure_stays_details (s : AppState)
    (h2 : s.step = 2) (hp : s.customerProfile = none)
    (hbd : jsTrim s.businessDescription ≠ []) (hg : s.isGenerating = false) :
    (applyAction (applyAction s .genStart) .genFail).step = 2 ∧
    (applyAction (applyAction s .genStart) .genFail).customerProfile = none ∧
    (applyAction (applyAction s .genStart) .genFail).isGenerating = false ∧
    (applyAction (applyAction (applyAction s .genStart) .genFail)
        .genStart).isGenerating = true := by
  simp [applyAction, h2, hp, hbd, hg]

/-- Witness for C2 at a concrete Details state. -/
theorem generation_failure_stays_details_witness :
    (applyAction (applyAction sampleDetails .genStart) .genFail).step = 2 ∧
    (applyAction (applyAction sampleDetails .genStart) .genFail).customerProfile = none ∧
    (applyAction (applyAction sampleDetails .genStart) .genFail).isGenerating = false ∧
    (applyAction (applyAction (applyAction sampleDetails .genStart) .genFail)
        .genStart).isGenerating = true :=
  generation_failure_stays_details sampleDetails rfl rfl (by decide) rfl

/-- The C3 invariant: a non-null profile is held only on the Result step. -/
def ProfileOnlyAtResult (s : AppState) : Prop :=
  s.customerProfile ≠ none → s.step = 3

theorem applyAction_profileOnlyAtResult (s : AppState) (a : Action)
    (h : ProfileOnlyAtResult s) : ProfileOnlyAtResult (applyAction s a) := by
  unfold ProfileOnlyAtResult at *
  cases a with
  | editVision v =>
      by_cases h1 : s.step = 1 <;> simpa [applyAction, h1] using h
  | editMission v =>
      by_cases h1 : s.step = 1 <;> simpa [applyAction, h1] using h
  | editBusiness v =>
      by_cases h1 : s.step = 2 <;> simpa [applyAction, h1] using h
  | editTarget v =>
      by_cases h1 : s.step = 2 <;> simpa [applyAction, h1] using h
  | setShowTemplates b =>
      by_cases h1 : s.step = 1 <;> simpa [applyAction, h1] using h
  | loadTemplate t =>
      by_cases h1 : s.step = 1 <;> simpa [applyAction, h1] using h
  | continueDetails =>
      by_cases h1 : s.step = 1 ∧ jsTrim s.visionStatement ≠ [] ∧
          jsTrim s.missionStatement ≠ []
      · intro hp
        have h3 := h (by simpa [applyAction, h1] using hp)
        omega
      · simpa [applyAction, h1] using h
  | back =>
      by_cases h1 : s.step = 2
      · intro hp
        have h3 := h (by simpa [applyAction, h1] using hp)
        omega
      · simpa [applyAction, h1] using h
  | reset =>
      by_cases h1 : s.step = 3 ∧ s.customerProfile.isSome
      · simp [applyAction, h1]
      · simpa [applyAction, h1] using h
  | genStart =>
      by_cases h1 : s.step = 2 ∧ jsTrim s.businessDescription ≠ [] ∧
          s.isGenerating = false
      · intro hp
        have h3 := h (by simpa [applyAction, h1] using hp)
        omega
      · simpa [applyAction, h1] using h
  | genSuccess p =>
      by_cases h1 : s.isGenerating = true
      · simp [applyAction, h1]
      · simpa [applyAction, h1] using h
  | genFail =>
      by_cases h1 : s.isGenerating = true <;> simpa [applyAction, h1] using h
  | save m =>
      by_cases h1 : s.step = 3 ∧ s.customerProfile.isSome ∧ s.isSaving = false
      · intro hp
        simp only [applyAction, if_pos h1, saveProfile_step]
        exact h1.1
      · simpa [applyAction, h1] using h
  | loadProfiles =>
      intro hp
      simp only [applyAction] at hp ⊢
      rw [loadSavedProfiles_customerProfile] at hp
      rw [loadSavedProfiles_step]
      exact h hp

theorem run_profileOnlyAtResult (s : AppState) (acts : List Action)
    (h : ProfileOnlyAtResult s) : ProfileOnlyAtResult (run s acts) := by
  induction acts generalizing s with
  | nil => exact h
  | cons a rest ih => exact ih _ (applyAction_profileOnlyAtResult s a h)

/-- Claim C3: in every state reachable from the initial empty state by any
sequence of UI events (edits, template loads, continue/back/reset, save and
load interactions, generation starts and their successful or failed
resolutions), a non-null `customerProfile` implies the wizard is on the
Result step. -/
theorem profile_only_in_result (uid : List Char) (st : Store) (acts : List Action)
    (h : (run (initState uid st) acts).customerProfile ≠ none) :
    (run (initState uid st) acts).step = 3 :=
  run_profileOnlyAtResult (initState uid st) acts (fun hp => absurd rfl hp) h

/-- Witness for C3: a concrete run that ends holding a profile is on step 3. -/
theorem profile_only_in_result_witness :
    (run (initState ("u1".toList) emptyStore) demoActs).customerProfile ≠ none ∧
    (run (initState ("u1".toList) emptyStore) demoActs).step = 3 :=
  ⟨by decide, profile_only_in_result _ _ demoActs (by decide)⟩

/-- Claim C4: with an empty or whitespace-only vision or mission statement,
the Continue control is disabled, so the Intake to Details transition cannot
fire: the continue event leaves the state unchanged. -/
theorem blank_statements_block_continue (s : AppState)
    (h : jsTrim s.visionStatement = [] ∨ jsTrim s.missionStatement = []) :
    applyAction s .continueDetails = s := by
  cases h with
  | inl h => simp [applyAction, h]
  | inr h => simp [applyAction, h]

/-- Witness for C4 at a whitespace-only vision statement. -/
theorem blank_statements_block_continue_witness :
    applyAction { initState ("u1".toList) emptyStore with
        visionStatement := "   ".toList, missionStatement := "m".toList }
      .continueDetails =
      { initState ("u1".toList) emptyStore with
        visionStatement := "   ".toList, missionStatement := "m".toList } :=
  blank_statements_block_continue _ (Or.inl (by decide))

/-- Claim C5: with an empty or whitespace-only business description, or
while a generation call is already in flight, the Generate control is
disabled, so the generation call cannot be triggered: the start event leaves
the state unchanged. -/
theorem blank_description_blocks_generation (s : AppState)
    (h : jsTrim s.businessDescription = [] ∨ s.isGenerating = true) :
    applyAction s .genStart = s := by
  cases h with
  | inl h => simp [applyAction, h]
  | inr h => simp [applyAction, h]

/-- Witness for C5 at a whitespace-only description (and, composed in the
same statement, at an in-flight call). -/
theorem blank_description_blocks_generation_witness :
    applyAction { sampleDetails with businessDescription := " ".toList }
      .genStart = { sampleDetails with businessDescription := " ".toList } ∧
    applyAction { sampleDetails with isGenerating := true } .genStart =
      { sampleDetails with isGenerating := true } :=
  ⟨blank_description_blocks_generation _ (Or.inl (by decide)),
   blank_description_blocks_generation _ (Or.inr rfl)⟩

/-! ## Trimming lemmas for the text report -/

theorem dropWhile_append_ex (p : Char → Bool) (a b : List Char)
    (h : ∃ x ∈ a, p x = false) :
    (a ++ b).dropWhile p = a.dropWhile p ++ b := by
  induction a with
  | nil =>
      obtain ⟨x, hx, _⟩ := h
      exact absurd hx (List.not_mem_nil x)
  | cons c t ih =>
      by_cases hc : p c = true
      · have ht : ∃ x ∈ t, p x = false := by
          obtain ⟨x, hx, hpx⟩ := h
          rcases List.mem_cons.mp hx with rfl | hxt
          · rw [hc] at hpx; cases hpx
          · exact ⟨x, hxt, hpx⟩
        simp [List.dropWhile, hc, ih ht]
      · simp [List.dropWhile, hc]

theorem trimRight_append (a b : List Char) (h : ∃ x ∈ b, jsWsB x = false) :
    trimRight (a ++ b) = a ++ trimRight b := by
  unfold trimRight
  rw [List.reverse_append]
  rw [dropWhile_append_ex jsWsB b.reverse a.reverse
        (by obtain ⟨x, hx, hw⟩ := h; exact ⟨x, List.mem_reverse.mpr hx, hw⟩)]
  rw [List.reverse_append, List.reverse_reverse]

theorem jsTrim_shape (c : Char) (x t : List Char) (hc : jsWsB c = false)
    (ht : ∃ y ∈ t, jsWsB y = false) :
    jsTrim ((("\n".toList) ++ (c :: x)) ++ t) = (c :: x) ++ trimRight t := by
  unfold jsTrim
  rw [trimRight_append _ _ ht]
  have hnl : jsWsB '\n' = true := by decide
  simp [trimLeft, List.dropWhile, hnl, hc]

/-- The trimmed text report in normal form: the leading newline is gone, and
trailing whitespace removal only affects the final
`"\nBudget Range: " ++ budget ++ "\n    "` segment (which always contains
non-whitespace text). -/
theorem textReport_eq (today : List Char) (s : AppState) (p : CustomerProfile) :
    textReport today s p =
      ("CUSTOMER PROFILE REPORT".toList) ++
      ("\nGenerated: ".toList) ++ today ++
      ("\n\n".toList) ++ ("BUSINESS INFORMATION".toList) ++
      ("\nVision Statement: ".toList) ++ s.visionStatement ++
      ("\nMission Statement: ".toList) ++ s.missionStatement ++
      ("\nBusiness Description: ".toList) ++ s.businessDescription ++
      ("\nTarget Market: ".toList) ++ jsOr s.targetMarket ("Not specified".toList) ++
      ("\n\n".toList) ++ ("CUSTOMER PROFILE".toList) ++
      ("\n\n".toList) ++ ("DEMOGRAPHICS".toList) ++
      ("\nAge Range: ".toList) ++ p.demographics.ageRange ++
      ("\nGender: ".toList) ++ p.demographics.gender ++
      ("\nLocation: ".toList) ++ p.demographics.location ++
      ("\nIncome Level: ".toList) ++ p.demographics.income ++
      ("\nEducation: ".toList) ++ p.demographics.education ++
      ("\n\n".toList) ++ ("PSYCHOGRAPHICS".toList) ++
      ("\nValues: ".toList) ++ joinComma p.psychographics.values ++
      ("\nInterests: ".toList) ++ joinComma p.psychographics.interests ++
      ("\nLifestyle: ".toList) ++ p.psychographics.lifestyle ++
      ("\nPersonality: ".toList) ++ p.psychographics.personality ++
      ("\n\n".toList) ++ ("PAIN POINTS".toList) ++
      ("\n".toList) ++ bullets p.painPoints ++
      ("\n\n".toList) ++ ("MOTIVATIONS".toList) ++
      ("\n".toList) ++ bullets p.motivations ++
      ("\n\n".toList) ++ ("GOALS".toList) ++
      ("\n".toList) ++ bullets p.goals ++
      ("\n\n".toList) ++ ("COMMUNICATION CHANNELS".toList) ++
      ("\n".toList) ++ joinComma p.communicationChannels ++
      ("\n\n".toList) ++ ("BUYING BEHAVIOR".toList) ++
      ("\nDecision Factors: ".toList) ++ joinComma p.buyingBehavior.decisionFactors ++
      ("\nPurchase Process: ".toList) ++ p.buyingBehavior.purchaseProcess ++
      trimRight (("\nBudget Range: ".toList) ++ p.buyingBehavior.budget ++
        ("\n    ".toList)) := by
  have hlit : ("CUSTOMER PROFILE REPORT".toList : List Char) =
      'C' :: ("USTOMER PROFILE REPORT".toList) := rfl
  have hgroup : textBody today s p =
      (("\n".toList) ++ ('C' :: (("USTOMER PROFILE REPORT".toList) ++
        (("\nGenerated: ".toList) ++ today ++
        ("\n\n".toList) ++ ("BUSINESS INFORMATION".toList) ++
        ("\nVision Statement: ".toList) ++ s.visionStatement ++
        ("\nMission Statement: ".toList) ++ s.missionStatement ++
        ("\nBusiness Description: ".toList) ++ s.businessDescription ++
        ("\nTarget Market: ".toList) ++ jsOr s.targetMarket ("Not specified".toList) ++
        ("\n\n".toList) ++ ("CUSTOMER PROFILE".toList) ++
        ("\n\n".toList) ++ ("DEMOGRAPHICS".toList) ++
        ("\nAge Range: ".toList) ++ p.demographics.ageRange ++
        ("\nGender: ".toList) ++ p.demographics.gender ++
        ("\nLocation: ".toList) ++ p.demographics.location ++
        ("\nIncome Level: ".toList) ++ p.demographics.income ++
        ("\nEducation: ".toList) ++ p.demographics.education ++
        ("\n\n".toList) ++ ("PSYCHOGRAPHICS".toList) ++
        ("\nValues: ".toList) ++ joinComma p.psychographics.values ++
        ("\nInterests: ".toList) ++ joinComma p.psychographics.interests ++
        ("\nLifestyle: ".toList) ++ p.psychographics.lifestyle ++
        ("\nPersonality: ".toList) ++ p.psychographics.personality ++
        ("\n\n".toList) ++ ("PAIN POINTS".toList) ++
        ("\n".toList) ++ bullets p.painPoints ++
        ("\n\n".toList) ++ ("MOTIVATIONS".toList) ++
        ("\n".toList) ++ bullets p.motivations ++
        ("\n\n".toList) ++ ("GOALS".toList) ++
        ("\n".toList) ++ bullets p.goals ++
        ("\n\n".toList) ++ ("COMMUNICATION CHANNELS".toList) ++
        ("\n".toList) ++ joinComma p.communicationChannels ++
        ("\n\n".toList) ++ ("BUYING BEHAVIOR".toList) ++
        ("\nDecision Factors: ".toList) ++ joinComma p.buyingBehavior.decisionFactors ++
        ("\nPurchase Process: ".toList) ++ p.buyingBehavior.purchaseProcess)))) ++
      (("\nBudget Range: ".toList) ++ (p.buyingBehavior.budget ++
        ("\n    ".toList))) := by
    simp only [textBody, hlit, List.append_assoc, List.cons_append,
      List.singleton_append, List.nil_append]
  have hB : ∃ y ∈ (("\nBudget Range: ".toList) ++ (p.buyingBehavior.budget ++
      ("\n    ".toList))), jsWsB y = false := by
    refine ⟨'B', List.mem_append.mpr (Or.inl (by decide)), by decide⟩
  unfold textReport
  rw [hgroup, jsTrim_shape 'C' _ _ (by decide) hB]
  simp only [hlit, List.append_assoc, List.cons_append, List.singleton_append,
    List.nil_append]

/-! ## Ordered occurrence of the section headers -/

/-- `InOrder hs s` holds when the strings `hs` occur in `s` in the given
order, as disjoint substrings from left to right. -/
def InOrder : List (List Char) → List Char → Prop
  | [], _ => True
  | hd :: t, s => ∃ u v, s = u ++ hd ++ v ∧ InOrder t v

theorem inOrder_head (hd : List Char) (t : List (List Char)) (q : List Char)
    (h : InOrder t q) : InOrder (hd :: t) (hd ++ q) :=
  ⟨[], q, by simp, h⟩

theorem inOrder_append_left (a : List Char) (hs : List (List Char))
    (s : List Char) (h : InOrder hs s) : InOrder hs (a ++ s) := by
  cases hs with
  | nil => trivial
  | cons hd t =>
      obtain ⟨u, v, rfl, hrest⟩ := h
      exact ⟨a ++ u, v, by simp [List.append_assoc], hrest⟩

/-- The ten section headers of the text report, in the required order. -/
def sectionHeaders : List (List Char) :=
  [("CUSTOMER PROFILE REPORT".toList), ("BUSINESS INFORMATION".toList),
   ("CUSTOMER PROFILE".toList), ("DEMOGRAPHICS".toList),
   ("PSYCHOGRAPHICS".toList), ("PAIN POINTS".toList), ("MOTIVATIONS".toList),
   ("GOALS".toList), ("COMMUNICATION CHANNELS".toList),
   ("BUYING BEHAVIOR".toList)]

/-- Claim C9: with a profile held, the text export is offered as
`customer-profile.txt` and its content contains the ten fixed section
headers in the required order. -/
theorem text_export_sections (today : List Char) (s : AppState)
    (p : CustomerProfile) (h : s.customerProfile = some p) :
    handleExportText today s =
      some ⟨"customer-profile.txt".toList, textReport today s p⟩ ∧
    InOrder sectionHeaders (textReport today s p) := by
  constructor
  · simp [handleExportText, h]
  · rw [textReport_eq]
    simp only [List.append_assoc, sectionHeaders]
    refine inOrder_head _ _ _ ?_
    iterate 3 refine inOrder_append_left _ _ _ ?_
    refine inOrder_head _ _ _ ?_
    iterate 9 refine inOrder_append_left _ _ _ ?_
    refine inOrder_head _ _ _ ?_
    iterate 1 refine inOrder_append_left _ _ _ ?_
    refine inOrder_head _ _ _ ?_
    iterate 11 refine inOrder_append_left _ _ _ ?_
    refine inOrder_head _ _ _ ?_
    iterate 9 refine inOrder_append_left _ _ _ ?_
    refine inOrder_head _ _ _ ?_
    iterate 3 refine inOrder_append_left _ _ _ ?_
    refine inOrder_head _ _ _ ?_
    iterate 3 refine inOrder_append_left _ _ _ ?_
    refine inOrder_head _ _ _ ?_
    iterate 3 refine inOrder_append_left _ _ _ ?_
    refine inOrder_head _ _ _ ?_
    iterate 3 refine inOrder_append_left _ _ _ ?_
    refine inOrder_head _ _ _ ?_
    trivial

/-- Witness for C9 at the sample Result state. -/
theorem text_export_sections_witness :
    handleExportText ("1/1/2025".toList) sampleResult =
      some ⟨"customer-profile.txt".toList,
        textReport ("1/1/2025".toList) sampleResult sampleProfile⟩ ∧
    InOrder sectionHeaders
      (textReport ("1/1/2025".toList) sampleResult sampleProfile) :=
  text_export_sections ("1/1/2025".toList) sampleResult sampleProfile rfl

/-! ## Decoding the export document back into the data model

The decoders below are the verification-side inverse of the export
serialization: they project a parsed JSON document back onto the data model,
so that round-trip claims can compare the re-parsed document with the
in-memory values. -/

/-- Project a JSON string value. -/
def asStr : Json → Option (List Char)
  | .str s => some s
  | _ => none

/-- Project a `JsonList` of string values. -/
def asStrListGo : JsonList → Option (List (List Char))
  | .nil => some []
  | .cons (.str s) t =>
      match asStrListGo t with
      | some l => some (s :: l)
      | none => none
  | .cons _ _ => none

/-- Project a JSON array of strings. -/
def asStrList : Json → Option (List (List Char))
  | .arr l => asStrListGo l
  | _ => none

/-- First-match key lookup in a JSON object. -/
def jget : JsonObj → List Char → Option Json
  | .nil, _ => none
  | .cons k v o, key => if k = key then some v else jget o key

/-- String field lookup. -/
def getStr (o : JsonObj) (k : List Char) : Option (List Char) :=
  (jget o k).bind asStr

/-- String-array field lookup. -/
def getStrList (o : JsonObj) (k : List Char) : Option (List (List Char)) :=
  (jget o k).bind asStrList

/-- Decoder for the `demographics` object. -/
def decodeDemographics : Json → Option Demographics
  | .obj o => do
      let a ← getStr o ("ageRange".toList)
      let g ← getStr o ("gender".toList)
      let l ← getStr o ("location".toList)
      let i ← getStr o ("income".toList)
      let e ← getStr o ("education".toList)
      pure ⟨a, g, l, i, e⟩
  | _ => none

/-- Decoder for the `psychographics` object. -/
def decodePsychographics : Json → Option Psychographics
  | .obj o => do
      let v ← getStrList o ("values".toList)
      let i ← getStrList o ("interests".toList)
      let l ← getStr o ("lifestyle".toList)
      let pe ← getStr o ("personality".toList)
      pure ⟨v, i, l, pe⟩
  | _ => none

/-- Decoder for the `buyingBehavior` object. -/
def decodeBuyingBehavior : Json → Option BuyingBehavior
  | .obj o => do
      let d ← getStrList o ("decisionFactors".toList)
      let pp ← getStr o ("purchaseProcess".toList)
      let b ← getStr o ("budget".toList)
      pure ⟨d, pp, b⟩
  | _ => none

/-- Decoder for a whole `CustomerProfile`. -/
def decodeProfile : Json → Option CustomerProfile
  | .obj o => do
      let d ← (jget o ("demographics".toList)).bind decodeDemographics
      let ps ← (jget o ("psychographics".toList)).bind decodePsychographics
      let pp ← getStrList o ("painPoints".toList)
      let mv ← getStrList o ("motivations".toList)
      let gl ← getStrList o ("goals".toList)
      let cc ← getStrList o ("communicationChannels".toList)
      let bb ← (jget o ("buyingBehavior".toList)).bind decodeBuyingBehavior
      pure ⟨d, ps, pp, mv, gl, cc, bb⟩
  | _ => none

/-- The four business inputs as exported under `businessInfo`. -/
structure BusinessInfo where
  visionStatement : List Char
  missionStatement : List Char
  businessDescription : List Char
  targetMarket : List Char
deriving DecidableEq

/-- The business inputs currently held by the wizard. -/
def businessInfoOf (s : AppState) : BusinessInfo :=
  ⟨s.visionStatement, s.missionStatement, s.businessDescription, s.targetMarket⟩

/-- Decoder for the `businessInfo` object. -/
def decodeBusinessInfo : Json → Option BusinessInfo
  | .obj o => do
      let v ← getStr o ("visionStatement".toList)
      let m ← getStr o ("missionStatement".toList)
      let b ← getStr o ("businessDescription".toList)
      let t ← getStr o ("targetMarket".toList)
      pure ⟨v, m, b, t⟩
  | _ => none

/-- Decoder for the whole export document: the business inputs and the
profile it carries. -/
def decodeExport (j : Json) : Option (BusinessInfo × CustomerProfile) :=
  match j with
  | .obj o => do
      let bi ← (jget o ("businessInfo".toList)).bind decodeBusinessInfo
      let cp ← (jget o ("customerProfile".toList)).bind decodeProfile
      pure (bi, cp)
  | _ => none

theorem asStrListGo_ofList (l : List (List Char)) :
    asStrListGo (JsonList.ofList (l.map Json.str)) = some l := by
  induction l with
  | nil => rfl
  | cons x t ih => simp [JsonList.ofList, asStrListGo, ih]

theorem decodeProfile_encodeProfile (p : CustomerProfile) :
    decodeProfile (encodeProfile p) = some p := by
  simp +decide [decodeProfile, encodeProfile, decodeDemographics,
    decodePsychographics, decodeBuyingBehavior, getStr, getStrList, jget,
    asStr, asStrList, asStrListGo_ofList, Option.bind]

theorem decodeExport_exportData (now : List Char) (s : AppState)
    (p : CustomerProfile) :
    decodeExport (exportData now s p) = some (businessInfoOf s, p) := by
  simp +decide [decodeExport, exportData, decodeBusinessInfo, getStr, jget,
    asStr, Option.bind, decodeProfile_encodeProfile, businessInfoOf]

/-- Claim C10: with a held profile and an empty `targetMarket`, the text
report's Target Market line reads `Not specified` (the `||` fallback fires
on the falsy empty string), while the JSON export document still carries the
empty string verbatim in `businessInfo.targetMarket`; the two exporters thus
emit different business-information values for this field. -/
theorem target_market_fallback_divergence (now today : List Char)
    (s : AppState) (p : CustomerProfile) (h : s.customerProfile = some p)
    (ht : s.targetMarket = []) :
    handleExportText today s =
      some ⟨"customer-profile.txt".toList, textReport today s p⟩ ∧
    handleExportJSON now s =
      some ⟨"customer-profile.json".toList, printPretty (exportData now s p)⟩ ∧
    (∃ a b, textReport today s p =
      a ++ ("Target Market: Not specified\n".toList) ++ b) ∧
    decodeExport (exportData now s p) =
      some (⟨s.visionStatement, s.missionStatement, s.businessDescription, []⟩, p) ∧
    ("Not specified".toList : List Char) ≠ ([] : List Char) := by
  refine ⟨by simp [handleExportText, h], by simp [handleExportJSON, h], ?_, ?_, by decide⟩
  · rw [textReport_eq]
    refine ⟨("CUSTOMER PROFILE REPORT".toList) ++
        ("\nGenerated: ".toList) ++ today ++
        ("\n\n".toList) ++ ("BUSINESS INFORMATION".toList) ++
        ("\nVision Statement: ".toList) ++ s.visionStatement ++
        ("\nMission Statement: ".toList) ++ s.missionStatement ++
        ("\nBusiness Description: ".toList) ++ s.businessDescription ++
        (['\n'] : List Char),
      (['\n'] : List Char) ++ ("CUSTOMER PROFILE".toList) ++
        ("\n\n".toList) ++ ("DEMOGRAPHICS".toList) ++
        ("\nAge Range: ".toList) ++ p.demographics.ageRange ++
        ("\nGender: ".toList) ++ p.demographics.gender ++
        ("\nLocation: ".toList) ++ p.demographics.location ++
        ("\nIncome Level: ".toList) ++ p.demographics.income ++
        ("\nEducation: ".toList) ++ p.demographics.education ++
        ("\n\n".toList) ++ ("PSYCHOGRAPHICS".toList) ++
        ("\nValues: ".toList) ++ joinComma p.psychographics.values ++
        ("\nInterests: ".toList) ++ joinComma p.psychographics.interests ++
        ("\nLifestyle: ".toList) ++ p.psychographics.lifestyle ++
        ("\nPersonality: ".toList) ++ p.psychographics.personality ++
        ("\n\n".toList) ++ ("PAIN POINTS".toList) ++
        ("\n".toList) ++ bullets p.painPoints ++
        ("\n\n".toList) ++ ("MOTIVATIONS".toList) ++
        ("\n".toList) ++ bullets p.motivations ++
        ("\n\n".toList) ++ ("GOALS".toList) ++
        ("\n".toList) ++ bullets p.goals ++
        ("\n\n".toList) ++ ("COMMUNICATION CHANNELS".toList) ++
        ("\n".toList) ++ joinComma p.communicationChannels ++
        ("\n\n".toList) ++ ("BUYING BEHAVIOR".toList) ++
        ("\nDecision Factors: ".toList) ++ joinComma p.buyingBehavior.decisionFactors ++
        ("\nPurchase Process: ".toList) ++ p.buyingBehavior.purchaseProcess ++
        trimRight (("\nBudget Range: ".toList) ++ p.buyingBehavior.budget ++
          ("\n    ".toList)), ?_⟩
    have h1 : ("\nTarget Market: ".toList : List Char) =
        '\n' :: ("Target Market: ".toList) := rfl
    have h2 : ("Target Market: Not specified\n".toList : List Char) =
        ("Target Market: ".toList) ++ ("Not specified".toList) ++ ['\n'] := by decide
    have h3 : ("\n\n".toList : List Char) = ['\n'] ++ ['\n'] := rfl
    rw [ht]
    have hj : jsOr ([] : List Char) ("Not specified".toList) =
        "Not specified".toList := rfl
    rw [hj]
    simp only [h1, h2, h3, List.append_assoc, List.cons_append,
      List.singleton_append, List.nil_append]
  · rw [decodeExport_exportData]
    simp [businessInfoOf, ht]

/-- Witness for C10 at the sample Result state with an empty target
market. -/
theorem target_market_fallback_divergence_witness :
    handleExportText ("1/1/2025".toList)
        { sampleResult with targetMarket := [] } =
      some ⟨"customer-profile.txt".toList,
        textReport ("1/1/2025".toList)
          { sampleResult with targetMarket := [] } sampleProfile⟩ ∧
    handleExportJSON ("2025-01-01".toList)
        { sampleResult with targetMarket := [] } =
      some ⟨"customer-profile.json".toList,
        printPretty (exportData ("2025-01-01".toList)
          { sampleResult with targetMarket := [] } sampleProfile)⟩ ∧
    (∃ a b, textReport ("1/1/2025".toList)
        { sampleResult with targetMarket := [] } sampleProfile =
      a ++ ("Target Market: Not specified\n".toList) ++ b) ∧
    decodeExport (exportData ("2025-01-01".toList)
        { sampleResult with targetMarket := [] } sampleProfile) =
      some (⟨("v".toList), ("m".toList), ("Design agency".toList), []⟩,
        sampleProfile) ∧
    ("Not specified".toList : List Char) ≠ ([] : List Char) :=
  target_market_fallback_divergence ("2025-01-01".toList) ("1/1/2025".toList)
    { sampleResult with targetMarket := [] } sampleProfile rfl rfl

/-! ## Round trip of the string escaping -/

theorem dropWhile_ws_of_all (w t : List Char) (hw : w.all isJsonWsB = true) :
    (w ++ t).dropWhile isJsonWsB = t.dropWhile isJsonWsB := by
  induction w with
  | nil => rfl
  | cons c cs ih =>
      simp only [List.all_cons, Bool.and_eq_true] at hw
      simp [List.dropWhile, hw.1, ih hw.2]

theorem dropWhile_cons_false (c : Char) (t : List Char)
    (hc : isJsonWsB c = false) :
    (c :: t).dropWhile isJsonWsB = c :: t := by
  simp [List.dropWhile, hc]

theorem hexVal_hexDigitChar : ∀ n, n < 16 →
    isHexDigitB (hexDigitChar n) = true ∧ hexVal (hexDigitChar n) = n := by
  decide

theorem psb_quote (rest : List Char) :
    parseStringBody (dquote :: rest) = some ([], rest) := by
  rw [parseStringBody.eq_def]; simp

theorem psb_esc_quote (rest : List Char) :
    parseStringBody (bslash :: dquote :: rest) =
      consR dquote (parseStringBody rest) := by
  rw [parseStringBody.eq_def]; simp +decide

theorem psb_esc_bslash (rest : List Char) :
    parseStringBody (bslash :: bslash :: rest) =
      consR bslash (parseStringBody rest) := by
  rw [parseStringBody.eq_def]; simp +decide

theorem psb_esc_b (rest : List Char) :
    parseStringBody (bslash :: 'b' :: rest) =
      consR (Char.ofNat 8) (parseStringBody rest) := by
  rw [parseStringBody.eq_def]; simp +decide

theorem psb_esc_f (rest : List Char) :
    parseStringBody (bslash :: 'f' :: rest) =
      consR (Char.ofNat 12) (parseStringBody rest) := by
  rw [parseStringBody.eq_def]; simp +decide

theorem psb_esc_n (rest : List Char) :
    parseStringBody (bslash :: 'n' :: rest) =
      consR '\n' (parseStringBody rest) := by
  rw [parseStringBody.eq_def]; simp +decide

theorem psb_esc_r (rest : List Char) :
    parseStringBody (bslash :: 'r' :: rest) =
      consR '\r' (parseStringBody rest) := by
  rw [parseStringBody.eq_def]; simp +decide

theorem psb_esc_t (rest : List Char) :
    parseStringBody (bslash :: 't' :: rest) =
      consR '\t' (parseStringBody rest) := by
  rw [parseStringBody.eq_def]; simp +decide

theorem psb_esc_u (h1 h2 h3 h4 : Char) (rest : List Char) :
    parseStringBody (bslash :: 'u' :: h1 :: h2 :: h3 :: h4 :: rest) =
      (if isHexDigitB h1 && isHexDigitB h2 && isHexDigitB h3 && isHexDigitB h4 then
        consR (Char.ofNat
            (hexVal h1 * 4096 + hexVal h2 * 256 + hexVal h3 * 16 + hexVal h4))
          (parseStringBody rest)
      else none) := by
  rw [parseStringBody.eq_def]; simp +decide

theorem psb_plain (c : Char) (rest : List Char) (hq : (c = dquote) = False)
    (hb : (c = bslash) = False) (hc : (c.toNat < 32) = False) :
    parseStringBody (c :: rest) = consR c (parseStringBody rest) := by
  rw [parseStringBody.eq_def]; simp [hq, hb, hc]

theorem parseStringBody_escString (cs rest : List Char) :
    parseStringBody (escString cs ++ dquote :: rest) = some (cs, rest) := by
  induction cs with
  | nil => simpa [escString] using psb_quote rest
  | cons c cs ih =>
      simp only [escString, List.append_assoc]
      by_cases h1 : c = dquote
      · subst h1
        simp +decide [escChar, psb_esc_quote, consR, ih]
      by_cases h2 : c = bslash
      · subst h2
        simp +decide [escChar, psb_esc_bslash, consR, ih]
      by_cases h3 : c = Char.ofNat 8
      · subst h3
        simp +decide [escChar, psb_esc_b, consR, ih]
      by_cases h4 : c = Char.ofNat 12
      · subst h4
        simp +decide [escChar, psb_esc_f, consR, ih]
      by_cases h5 : c = '\n'
      · subst h5
        simp +decide [escChar, psb_esc_n, consR, ih]
      by_cases h6 : c = '\r'
      · subst h6
        simp +decide [escChar, psb_esc_r, consR, ih]
      by_cases h7 : c = '\t'
      · subst h7
        simp +decide [escChar, psb_esc_t, consR, ih]
      by_cases h8 : c.toNat < 32
      · have hd1 : c.toNat / 16 < 16 := by omega
        have hd2 : c.toNat % 16 < 16 := Nat.mod_lt _ (by norm_num)
        have hh1 := hexVal_hexDigitChar _ hd1
        have hh2 := hexVal_hexDigitChar _ hd2
        have hval : hexVal (hexDigitChar (c.toNat / 16)) * 16 +
            hexVal (hexDigitChar (c.toNat % 16)) = c.toNat := by
          rw [hh1.2, hh2.2]
          have hm := Nat.div_add_mod c.toNat 16
          omega
        have hesc : escChar c =
            [bslash, 'u', '0', '0', hexDigitChar (c.toNat / 16),
             hexDigitChar (c.toNat % 16)] := by
          simp [escChar, h1, h2, h3, h4, h5, h6, h7, h8]
        rw [hesc]
        simp only [List.cons_append, List.nil_append]
        rw [psb_esc_u]
        simp +decide [hh1.1, hh2.1]
        have h0 : hexVal '0' = 0 := by decide
        rw [h0]
        simp only [Nat.zero_mul, Nat.zero_add]
        rw [hval, Char.ofNat_toNat]
        simp [consR, ih]
      · have hesc : escChar c = [c] := by
          simp [escChar, h1, h2, h3, h4, h5, h6, h7, h8]
        rw [hesc]
        simp only [List.cons_append, List.nil_append]
        rw [psb_plain c _ (by simp [h1]) (by simp [h2]) (by simp [h8])]
        simp [consR, ih]

/-! ## Unfolding equations for the mutual definitions -/

theorem numFree_str (s : List Char) : Json.numFree (.str s) = true := rfl

theorem numFree_num (l : List Char) : Json.numFree (.num l) = false := rfl

theorem numFree_bool (b : Bool) : Json.numFree (.bool b) = true := rfl

theorem numFree_null : Json.numFree .null = true := rfl

theorem numFree_arr (l : JsonList) :
    Json.numFree (.arr l) = JsonList.numFreeL l := rfl

theorem numFree_obj (o : JsonObj) :
    Json.numFree (.obj o) = JsonObj.numFreeO o := rfl

theorem numFreeL_nil : JsonList.numFreeL .nil = true := rfl

theorem numFreeL_cons (x : Json) (xs : JsonList) :
    JsonList.numFreeL (.cons x xs) = (Json.numFree x && JsonList.numFreeL xs) := rfl

theorem numFreeO_nil : JsonObj.numFreeO .nil = true := rfl

theorem numFreeO_cons (k : List Char) (v : Json) (o : JsonObj) :
    JsonObj.numFreeO (.cons k v o) = (Json.numFree v && JsonObj.numFreeO o) := rfl

theorem jsize_str (s : List Char) : Json.jsize (.str s) = 1 := rfl

theorem jsize_num (l : List Char) : Json.jsize (.num l) = 1 := rfl

theorem jsize_bool (b : Bool) : Json.jsize (.bool b) = 1 := rfl

theorem jsize_null : Json.jsize .null = 1 := rfl

theorem jsize_arr (l : JsonList) :
    Json.jsize (.arr l) = 1 + JsonList.sizeElems l := rfl

theorem jsize_obj (o : JsonObj) :
    Json.jsize (.obj o) = 1 + JsonObj.sizeEntries o := rfl

theorem sizeElems_nil : JsonList.sizeElems .nil = 0 := rfl

theorem sizeElems_cons (x : Json) (xs : JsonList) :
    JsonList.sizeElems (.cons x xs) =
      1 + Json.jsize x + JsonList.sizeElems xs := rfl

theorem sizeEntries_nil : JsonObj.sizeEntries .nil = 0 := rfl

theorem sizeEntries_cons (k : List Char) (v : Json) (o : JsonObj) :
    JsonObj.sizeEntries (.cons k v o) =
      1 + Json.jsize v + JsonObj.sizeEntries o := rfl

theorem jsize_pos (v : Json) : 1 ≤ Json.jsize v := by
  cases v with
  | str s => rw [jsize_str]
  | num l => rw [jsize_num]
  | bool b => rw [jsize_bool]
  | null => rw [jsize_null]
  | arr l => rw [jsize_arr]; omega
  | obj o => rw [jsize_obj]; omega

theorem printGo_str (pre : Nat → List Char) (pad : List Char) (s : List Char)
    (d : Nat) :
    printGo pre pad (.str s) d = dquote :: (escString s ++ [dquote]) := rfl

theorem printGo_num (pre : Nat → List Char) (pad : List Char) (l : List Char)
    (d : Nat) : printGo pre pad (.num l) d = l := rfl

theorem printGo_true (pre : Nat → List Char) (pad : List Char) (d : Nat) :
    printGo pre pad (.bool true) d = "true".toList := rfl

theorem printGo_false (pre : Nat → List Char) (pad : List Char) (d : Nat) :
    printGo pre pad (.bool false) d = "false".toList := rfl

theorem printGo_null (pre : Nat → List Char) (pad : List Char) (d : Nat) :
    printGo pre pad .null d = "null".toList := rfl

theorem printGo_arr_nil (pre : Nat → List Char) (pad : List Char) (d : Nat) :
    printGo pre pad (.arr .nil) d = "[]".toList := rfl

theorem printGo_arr_cons (pre : Nat → List Char) (pad : List Char) (x : Json)
    (xs : JsonList) (d : Nat) :
    printGo pre pad (.arr (.cons x xs)) d =
      '[' :: (pre (d + 1) ++ printGo pre pad x (d + 1) ++
        printArrTail pre pad xs (d + 1) ++ pre d ++ [']']) := rfl

theorem printGo_obj_nil (pre : Nat → List Char) (pad : List Char) (d : Nat) :
    printGo pre pad (.obj .nil) d = [lbrace, rbrace] := rfl

theorem printGo_obj_cons (pre : Nat → List Char) (pad : List Char)
    (k : List Char) (v : Json) (os : JsonObj) (d : Nat) :
    printGo pre pad (.obj (.cons k v os)) d =
      lbrace :: (pre (d + 1) ++ (dquote :: (escString k ++ [dquote])) ++
        ':' :: (pad ++ printGo pre pad v (d + 1) ++
          printObjTail pre pad os (d + 1) ++ pre d ++ [rbrace])) := rfl

theorem printArrTail_nil (pre : Nat → List Char) (pad : List Char) (d : Nat) :
    printArrTail pre pad .nil d = [] := rfl

theorem printArrTail_cons (pre : Nat → List Char) (pad : List Char) (y : Json)
    (ys : JsonList) (d : Nat) :
    printArrTail pre pad (.cons y ys) d =
      ',' :: (pre d ++ printGo pre pad y d ++ printArrTail pre pad ys d) := rfl

theorem printObjTail_nil (pre : Nat → List Char) (pad : List Char) (d : Nat) :
    printObjTail pre pad .nil d = [] := rfl

theorem printObjTail_cons (pre : Nat → List Char) (pad : List Char)
    (k : List Char) (v : Json) (os : JsonObj) (d : Nat) :
    printObjTail pre pad (.cons k v os) d =
      ',' :: (pre d ++ (dquote :: (escString k ++ [dquote])) ++
        ':' :: (pad ++ printGo pre pad v d ++ printObjTail pre pad os d)) := rfl

/-- The first character of a printed (number-free) value: never whitespace,
never a closing bracket or brace. -/
theorem printGo_head (pre : Nat → List Char) (pad : List Char) (v : Json)
    (d : Nat) (hv : Json.numFree v = true) :
    ∃ c t, printGo pre pad v d = c :: t ∧ isJsonWsB c = false ∧
      (c = ']') = False ∧ (c = rbrace) = False := by
  cases v with
  | str s => exact ⟨dquote, _, printGo_str pre pad s d, by decide, by decide, by decide⟩
  | num l => rw [numFree_num] at hv; cases hv
  | bool b =>
      cases b
      · exact ⟨'f', _, printGo_false pre pad d, by decide, by decide, by decide⟩
      · exact ⟨'t', _, printGo_true pre pad d, by decide, by decide, by decide⟩
  | null => exact ⟨'n', _, printGo_null pre pad d, by decide, by decide, by decide⟩
  | arr l =>
      cases l with
      | nil => exact ⟨'[', _, printGo_arr_nil pre pad d, by decide, by decide, by decide⟩
      | cons x xs =>
          exact ⟨'[', _, printGo_arr_cons pre pad x xs d, by decide, by decide, by decide⟩
  | obj o =>
      cases o with
      | nil => exact ⟨lbrace, _, printGo_obj_nil pre pad d, by decide, by decide, by decide⟩
      | cons k v os =>
          exact ⟨lbrace, _, printGo_obj_cons pre pad k v os d, by decide, by decide, by decide⟩

theorem dropWhile_ws_append_cons (w : List Char) (c : Char) (t : List Char)
    (hw : w.all isJsonWsB = true) (hc : isJsonWsB c = false) :
    (w ++ (c :: t)).dropWhile isJsonWsB = c :: t := by
  rw [dropWhile_ws_of_all _ _ hw, dropWhile_cons_false _ _ hc]

/-- One-step unfolding of `parseValue` at positive fuel. -/
theorem parseValue_succ (f : Nat) (s : List Char) :
    parseValue (f + 1) s =
      (match s.dropWhile isJsonWsB with
      | [] => none
      | c :: cs =>
        if c = dquote then
          match parseStringBody cs with
          | some (t, r) => some (.str t, r)
          | none => none
        else if c = '[' then
          match cs.dropWhile isJsonWsB with
          | [] => none
          | c2 :: r2 =>
            if c2 = ']' then some (.arr .nil, r2)
            else
              match parseElems f (c2 :: r2) with
              | some (l, r) => some (.arr l, r)
              | none => none
        else if c = lbrace then
          match cs.dropWhile isJsonWsB with
          | [] => none
          | c2 :: r2 =>
            if c2 = rbrace then some (.obj .nil, r2)
            else
              match parseEntries f (c2 :: r2) with
              | some (o, r) => some (.obj o, r)
              | none => none
        else if c = 't' then
          match cs with
          | 'r' :: 'u' :: 'e' :: r => some (.bool true, r)
          | _ => none
        else if c = 'f' then
          match cs with
          | 'a' :: 'l' :: 's' :: 'e' :: r => some (.bool false, r)
          | _ => none
        else if c = 'n' then
          match cs with
          | 'u' :: 'l' :: 'l' :: r => some (.null, r)
          | _ => none
        else if c = '-' || c.isDigit then
          match parseNumber (c :: cs) with
          | some (t, r) => some (.num t, r)
          | none => none
        else none) := rfl

/-- One-step unfolding of `parseElems` at positive fuel. -/
theorem parseElems_succ (f : Nat) (s : List Char) :
    parseElems (f + 1) s =
      (match parseValue f s with
      | none => none
      | some (v, r) =>
        match r.dropWhile isJsonWsB with
        | ',' :: r2 =>
          match parseElems f r2 with
          | some (l, r3) => some (.cons v l, r3)
          | none => none
        | ']' :: r2 => some (.cons v .nil, r2)
        | _ => none) := rfl

/-- One-step unfolding of `parseEntries` at positive fuel. -/
theorem parseEntries_succ (f : Nat) (s : List Char) :
    parseEntries (f + 1) s =
      (match s.dropWhile isJsonWsB with
      | [] => none
      | c :: cs =>
        if c = dquote then
          match parseStringBody cs with
          | none => none
          | some (k, r) =>
            match r.dropWhile isJsonWsB with
            | ':' :: r2 =>
              match parseValue f r2 with
              | none => none
              | some (v, r3) =>
                match r3.dropWhile isJsonWsB with
                | ',' :: r4 =>
                  match parseEntries f r4 with
                  | some (o, r5) => some (.cons k v o, r5)
                  | none => none
                | c4 :: r4 => if c4 = rbrace then some (.cons k v .nil, r4) else none
                | [] => none
            | _ => none
        else none) := rfl

theorem pv_step_str (f : Nat) (s cs : List Char)
    (h : s.dropWhile isJsonWsB = dquote :: cs) :
    parseValue (f + 1) s =
      (match parseStringBody cs with
       | some (t, r) => some (Json.str t, r)
       | none => none) := by
  rw [parseValue_succ, h]
  rfl

theorem pv_step_arr (f : Nat) (s cs : List Char)
    (h : s.dropWhile isJsonWsB = '[' :: cs) :
    parseValue (f + 1) s =
      (match cs.dropWhile isJsonWsB with
      | [] => none
      | c2 :: r2 =>
        if c2 = ']' then some (.arr .nil, r2)
        else
          match parseElems f (c2 :: r2) with
          | some (l, r) => some (.arr l, r)
          | none => none) := by
  rw [parseValue_succ, h]
  rfl

theorem pv_step_obj (f : Nat) (s cs : List Char)
    (h : s.dropWhile isJsonWsB = lbrace :: cs) :
    parseValue (f + 1) s =
      (match cs.dropWhile isJsonWsB with
      | [] => none
      | c2 :: r2 =>
        if c2 = rbrace then some (.obj .nil, r2)
        else
          match parseEntries f (c2 :: r2) with
          | some (o, r) => some (.obj o, r)
          | none => none) := by
  rw [parseValue_succ, h]
  rfl

theorem pv_step_true (f : Nat) (s rest : List Char)
    (h : s.dropWhile isJsonWsB = 't' :: ("rue".toList ++ rest)) :
    parseValue (f + 1) s = some (.bool true, rest) := by
  rw [parseValue_succ, h]
  rfl

theorem pv_step_false (f : Nat) (s rest : List Char)
    (h : s.dropWhile isJsonWsB = 'f' :: ("alse".toList ++ rest)) :
    parseValue (f + 1) s = some (.bool false, rest) := by
  rw [parseValue_succ, h]
  rfl

theorem pv_step_null (f : Nat) (s rest : List Char)
    (h : s.dropWhile isJsonWsB = 'n' :: ("ull".toList ++ rest)) :
    parseValue (f + 1) s = some (.null, rest) := by
  rw [parseValue_succ, h]
  rfl

/-! ## The printer/parser round trip -/

mutual

/-- Reparsing a printed value, after any whitespace prefix, returns exactly
that value and leaves exactly the following input. -/
theorem parse_print_rt (pre : Nat → List Char) (pad : List Char)
    (hpre : ∀ n, (pre n).all isJsonWsB = true)
    (hpad : pad.all isJsonWsB = true)
    (v : Json) (d : Nat) (w rest : List Char)
    (hw : w.all isJsonWsB = true) (fuel : Nat)
    (hnf : Json.numFree v = true) (hfuel : Json.jsize v ≤ fuel) :
    parseValue fuel (w ++ (printGo pre pad v d ++ rest)) = some (v, rest) := by
  have hp1 := jsize_pos v
  obtain ⟨f, rfl⟩ : ∃ f, fuel = f + 1 := ⟨fuel - 1, by omega⟩
  cases v with
  | num l => rw [numFree_num] at hnf; cases hnf
  | str s =>
      have hd : (w ++ (printGo pre pad (.str s) d ++ rest)).dropWhile isJsonWsB
          = dquote :: (escString s ++ (dquote :: rest)) := by
        rw [printGo_str]
        simp only [List.cons_append, List.append_assoc, List.singleton_append]
        exact dropWhile_ws_append_cons w dquote _ hw (by decide)
      rw [pv_step_str f _ _ hd, parseStringBody_escString]
  | bool b =>
      cases b with
      | true =>
          have hd : (w ++ (printGo pre pad (.bool true) d ++ rest)).dropWhile isJsonWsB
              = 't' :: ("rue".toList ++ rest) := by
            rw [printGo_true]
            have he : ("true".toList : List Char) ++ rest =
                't' :: ("rue".toList ++ rest) := rfl
            rw [he]
            exact dropWhile_ws_append_cons w 't' _ hw (by decide)
          exact pv_step_true f _ rest hd
      | false =>
          have hd : (w ++ (printGo pre pad (.bool false) d ++ rest)).dropWhile isJsonWsB
              = 'f' :: ("alse".toList ++ rest) := by
            rw [printGo_false]
            have he : ("false".toList : List Char) ++ rest =
                'f' :: ("alse".toList ++ rest) := rfl
            rw [he]
            exact dropWhile_ws_append_cons w 'f' _ hw (by decide)
          exact pv_step_false f _ rest hd
  | null =>
      have hd : (w ++ (printGo pre pad .null d ++ rest)).dropWhile isJsonWsB
          = 'n' :: ("ull".toList ++ rest) := by
        rw [printGo_null]
        have he : ("null".toList : List Char) ++ rest =
            'n' :: ("ull".toList ++ rest) := rfl
        rw [he]
        exact dropWhile_ws_append_cons w 'n' _ hw (by decide)
      exact pv_step_null f _ rest hd
  | arr l =>
      cases l with
      | nil =>
          have hd : (w ++ (printGo pre pad (.arr .nil) d ++ rest)).dropWhile isJsonWsB
              = '[' :: (']' :: rest) := by
            rw [printGo_arr_nil]
            have he : ("[]".toList : List Char) ++ rest = '[' :: (']' :: rest) := rfl
            rw [he]
            exact dropWhile_ws_append_cons w '[' _ hw (by decide)
          rw [pv_step_arr f _ _ hd]
          rw [dropWhile_cons_false ']' rest (by decide)]
          simp
      | cons x xs =>
          rw [numFree_arr, numFreeL_cons, Bool.and_eq_true] at hnf
          rw [jsize_arr, sizeElems_cons] at hfuel
          have hd : (w ++ (printGo pre pad (.arr (.cons x xs)) d ++ rest)).dropWhile isJsonWsB
              = '[' :: (pre (d + 1) ++ (printGo pre pad x (d + 1) ++
                (printArrTail pre pad xs (d + 1) ++ (pre d ++ (']' :: rest))))) := by
            rw [printGo_arr_cons]
            simp only [List.cons_append, List.append_assoc, List.singleton_append]
            exact dropWhile_ws_append_cons w '[' _ hw (by decide)
          rw [pv_step_arr f _ _ hd]
          obtain ⟨c0, t0, heq, hws0, hne0, _⟩ :=
            printGo_head pre pad x (d + 1) hnf.1
          have hd2 : (pre (d + 1) ++ (printGo pre pad x (d + 1) ++
              (printArrTail pre pad xs (d + 1) ++ (pre d ++ (']' :: rest))))).dropWhile isJsonWsB
              = c0 :: (t0 ++ (printArrTail pre pad xs (d + 1) ++
                (pre d ++ (']' :: rest)))) := by
            rw [heq]
            simp only [List.cons_append, List.append_assoc]
            exact dropWhile_ws_append_cons _ c0 _ (hpre (d + 1)) hws0
          rw [hd2]
          have hrec := parse_print_elems pre pad hpre hpad x xs (d + 1) d []
            rest rfl f hnf.1 hnf.2 (by rw [sizeElems_cons]; omega)
          rw [List.nil_append, heq] at hrec
          simp only [List.cons_append, List.append_assoc] at hrec
          simp [hne0, hrec]
  | obj o =>
      cases o with
      | nil =>
          have hd : (w ++ (printGo pre pad (.obj .nil) d ++ rest)).dropWhile isJsonWsB
              = lbrace :: (rbrace :: rest) := by
            rw [printGo_obj_nil]
            have he : ([lbrace, rbrace] : List Char) ++ rest =
                lbrace :: (rbrace :: rest) := rfl
            rw [he]
            exact dropWhile_ws_append_cons w lbrace _ hw (by decide)
          rw [pv_step_obj f _ _ hd]
          rw [dropWhile_cons_false rbrace rest (by decide)]
          simp
      | cons k v os =>
          rw [numFree_obj, numFreeO_cons, Bool.and_eq_true] at hnf
          rw [jsize_obj, sizeEntries_cons] at hfuel
          have hd : (w ++ (printGo pre pad (.obj (.cons k v os)) d ++ rest)).dropWhile isJsonWsB
              = lbrace :: (pre (d + 1) ++ (dquote :: (escString k ++
                (dquote :: (':' :: (pad ++ (printGo pre pad v (d + 1) ++
                  (printObjTail pre pad os (d + 1) ++
                    (pre d ++ (rbrace :: rest)))))))))) := by
            rw [printGo_obj_cons]
            simp only [List.cons_append, List.append_assoc, List.singleton_append]
            exact dropWhile_ws_append_cons w lbrace _ hw (by decide)
          rw [pv_step_obj f _ _ hd]
          have hd2 : (pre (d + 1) ++ (dquote :: (escString k ++
              (dquote :: (':' :: (pad ++ (printGo pre pad v (d + 1) ++
                (printObjTail pre pad os (d + 1) ++
                  (pre d ++ (rbrace :: rest)))))))))).dropWhile isJsonWsB
              = dquote :: (escString k ++ (dquote :: (':' :: (pad ++
                (printGo pre pad v (d + 1) ++ (printObjTail pre pad os (d + 1) ++
                  (pre d ++ (rbrace :: rest)))))))) := by
            exact dropWhile_ws_append_cons _ dquote _ (hpre (d + 1)) (by decide)
          rw [hd2]
          have hrec := parse_print_entries pre pad hpre hpad k v os (d + 1) d []
            rest rfl f hnf.1 hnf.2 (by rw [sizeEntries_cons]; omega)
          rw [List.nil_append] at hrec
          simp +decide [hrec]
termination_by sizeOf v

/-- Reparsing the printed elements of a non-empty array (first element, then
comma-separated tail, then the closing bracket). -/
theorem parse_print_elems (pre : Nat → List Char) (pad : List Char)
    (hpre : ∀ n, (pre n).all isJsonWsB = true)
    (hpad : pad.all isJsonWsB = true)
    (x : Json) (xs : JsonList) (d dc : Nat) (w rest : List Char)
    (hw : w.all isJsonWsB = true) (f : Nat)
    (hnx : Json.numFree x = true) (hnxs : JsonList.numFreeL xs = true)
    (hfuel : JsonList.sizeElems (.cons x xs) ≤ f) :
    parseElems f (w ++ (printGo pre pad x d ++ (printArrTail pre pad xs d ++
      (pre dc ++ (']' :: rest))))) = some (.cons x xs, rest) := by
  rw [sizeElems_cons] at hfuel
  have hp1 := jsize_pos x
  obtain ⟨f0, rfl⟩ : ∃ f0, f = f0 + 1 := ⟨f - 1, by omega⟩
  rw [parseElems_succ]
  have hv := parse_print_rt pre pad hpre hpad x d w
    (printArrTail pre pad xs d ++ (pre dc ++ (']' :: rest))) hw f0 hnx (by omega)
  cases xs with
  | nil =>
      have hdw : (printArrTail pre pad .nil d ++
          (pre dc ++ (']' :: rest))).dropWhile isJsonWsB = ']' :: rest := by
        rw [printArrTail_nil, List.nil_append]
        exact dropWhile_ws_append_cons (pre dc) ']' rest (hpre dc) (by decide)
      simp +decide [hv, hdw]
  | cons y ys =>
      rw [numFreeL_cons, Bool.and_eq_true] at hnxs
      rw [sizeElems_cons] at hfuel
      have hdw : (printArrTail pre pad (.cons y ys) d ++
          (pre dc ++ (']' :: rest))).dropWhile isJsonWsB
          = ',' :: (pre d ++ (printGo pre pad y d ++ (printArrTail pre pad ys d ++
            (pre dc ++ (']' :: rest))))) := by
        rw [printArrTail_cons]
        simp only [List.cons_append, List.append_assoc]
        exact dropWhile_cons_false ',' _ (by decide)
      have hrec := parse_print_elems pre pad hpre hpad y ys d dc (pre d) rest
        (hpre d) f0 hnxs.1 hnxs.2 (by rw [sizeElems_cons]; omega)
      simp +decide [hv, hdw, hrec]
termination_by 1 + sizeOf x + sizeOf xs

/-- Reparsing the printed entries of a non-empty object (first entry, then
comma-separated tail, then the closing brace). -/
theorem parse_print_entries (pre : Nat → List Char) (pad : List Char)
    (hpre : ∀ n, (pre n).all isJsonWsB = true)
    (hpad : pad.all isJsonWsB = true)
    (k : List Char) (v : Json) (os : JsonObj) (d dc : Nat) (w rest : List Char)
    (hw : w.all isJsonWsB = true) (f : Nat)
    (hnv : Json.numFree v = true) (hnos : JsonObj.numFreeO os = true)
    (hfuel : JsonObj.sizeEntries (.cons k v os) ≤ f) :
    parseEntries f (w ++ (dquote :: (escString k ++ (dquote :: (':' ::
      (pad ++ (printGo pre pad v d ++ (printObjTail pre pad os d ++
        (pre dc ++ (rbrace :: rest)))))))))) = some (.cons k v os, rest) := by
  rw [sizeEntries_cons] at hfuel
  have hp1 := jsize_pos v
  obtain ⟨f0, rfl⟩ : ∃ f0, f = f0 + 1 := ⟨f - 1, by omega⟩
  rw [parseEntries_succ]
  have hdw : (w ++ (dquote :: (escString k ++ (dquote :: (':' ::
      (pad ++ (printGo pre pad v d ++ (printObjTail pre pad os d ++
        (pre dc ++ (rbrace :: rest)))))))))).dropWhile isJsonWsB
      = dquote :: (escString k ++ (dquote :: (':' ::
        (pad ++ (printGo pre pad v d ++ (printObjTail pre pad os d ++
          (pre dc ++ (rbrace :: rest)))))))) :=
    dropWhile_ws_append_cons w dquote _ hw (by decide)
  have hstr : parseStringBody (escString k ++ (dquote :: (':' ::
      (pad ++ (printGo pre pad v d ++ (printObjTail pre pad os d ++
        (pre dc ++ (rbrace :: rest)))))))) = some (k, ':' ::
      (pad ++ (printGo pre pad v d ++ (printObjTail pre pad os d ++
        (pre dc ++ (rbrace :: rest)))))) := parseStringBody_escString k _
  have hcol : ((':' :: (pad ++ (printGo pre pad v d ++
      (printObjTail pre pad os d ++ (pre dc ++ (rbrace :: rest)))))) :
      List Char).dropWhile isJsonWsB
      = ':' :: (pad ++ (printGo pre pad v d ++ (printObjTail pre pad os d ++
        (pre dc ++ (rbrace :: rest))))) :=
    dropWhile_cons_false ':' _ (by decide)
  have hv2 := parse_print_rt pre pad hpre hpad v d pad
    (printObjTail pre pad os d ++ (pre dc ++ (rbrace :: rest))) hpad f0 hnv
    (by omega)
  cases os with
  | nil =>
      have hdw3 : (printObjTail pre pad .nil d ++
          (pre dc ++ (rbrace :: rest))).dropWhile isJsonWsB = rbrace :: rest := by
        rw [printObjTail_nil, List.nil_append]
        exact dropWhile_ws_append_cons (pre dc) rbrace rest (hpre dc) (by decide)
      simp +decide [hdw, hstr, hcol, hv2, hdw3]
  | cons k2 v2 os2 =>
      rw [numFreeO_cons, Bool.and_eq_true] at hnos
      rw [sizeEntries_cons] at hfuel
      have hdw3 : (printObjTail pre pad (.cons k2 v2 os2) d ++
          (pre dc ++ (rbrace :: rest))).dropWhile isJsonWsB
          = ',' :: (pre d ++ (dquote :: (escString k2 ++ (dquote :: (':' ::
            (pad ++ (printGo pre pad v2 d ++ (printObjTail pre pad os2 d ++
              (pre dc ++ (rbrace :: rest)))))))))) := by
        rw [printObjTail_cons]
        simp only [List.cons_append, List.append_assoc, List.singleton_append]
        exact dropWhile_cons_false ',' _ (by decide)
      have hrec := parse_print_entries pre pad hpre hpad k2 v2 os2 d dc (pre d)
        rest (hpre d) f0 hnos.1 hnos.2 (by rw [sizeEntries_cons]; omega)
      simp +decide [hdw, hstr, hcol, hv2, hdw3, hrec]
termination_by 1 + sizeOf v + sizeOf os

end

/-! ## Fuel adequacy: the default fuel of `parseJson` suffices -/

mutual

theorem jsize_le_print (pre : Nat → List Char) (pad : List Char) (v : Json)
    (d : Nat) (hnf : Json.numFree v = true) :
    Json.jsize v ≤ (printGo pre pad v d).length := by
  cases v with
  | str s =>
      rw [printGo_str, jsize_str]
      simp [List.length_cons, List.length_append]
  | num l => rw [numFree_num] at hnf; cases hnf
  | bool b =>
      cases b with
      | true => rw [printGo_true, jsize_bool]; decide
      | false => rw [printGo_false, jsize_bool]; decide
  | null => rw [printGo_null, jsize_null]; decide
  | arr l =>
      cases l with
      | nil => rw [printGo_arr_nil, jsize_arr, sizeElems_nil]; decide
      | cons x xs =>
          rw [numFree_arr, numFreeL_cons, Bool.and_eq_true] at hnf
          rw [printGo_arr_cons, jsize_arr, sizeElems_cons]
          have h1 := jsize_le_print pre pad x (d + 1) hnf.1
          have h2 := sizeElems_le_print pre pad xs (d + 1) hnf.2
          simp [List.length_cons, List.length_append]
          omega
  | obj o =>
      cases o with
      | nil => rw [printGo_obj_nil, jsize_obj, sizeEntries_nil]; decide
      | cons k v os =>
          rw [numFree_obj, numFreeO_cons, Bool.and_eq_true] at hnf
          rw [printGo_obj_cons, jsize_obj, sizeEntries_cons]
          have h1 := jsize_le_print pre pad v (d + 1) hnf.1
          have h2 := sizeEntries_le_print pre pad os (d + 1) hnf.2
          simp [List.length_cons, List.length_append]
          omega
termination_by sizeOf v

theorem sizeElems_le_print (pre : Nat → List Char) (pad : List Char)
    (xs : JsonList) (d : Nat) (hnf : JsonList.numFreeL xs = true) :
    JsonList.sizeElems xs ≤ (printArrTail pre pad xs d).length := by
  cases xs with
  | nil => rw [printArrTail_nil, sizeElems_nil]; decide
  | cons y ys =>
      rw [numFreeL_cons, Bool.and_eq_true] at hnf
      rw [printArrTail_cons, sizeElems_cons]
      have h1 := jsize_le_print pre pad y d hnf.1
      have h2 := sizeElems_le_print pre pad ys d hnf.2
      simp [List.length_cons, List.length_append]
      omega
termination_by sizeOf xs

theorem sizeEntries_le_print (pre : Nat → List Char) (pad : List Char)
    (os : JsonObj) (d : Nat) (hnf : JsonObj.numFreeO os = true) :
    JsonObj.sizeEntries os ≤ (printObjTail pre pad os d).length := by
  cases os with
  | nil => rw [printObjTail_nil, sizeEntries_nil]; decide
  | cons k v os2 =>
      rw [numFreeO_cons, Bool.and_eq_true] at hnf
      rw [printObjTail_cons, sizeEntries_cons]
      have h1 := jsize_le_print pre pad v d hnf.1
      have h2 := sizeEntries_le_print pre pad os2 d hnf.2
      simp [List.length_cons, List.length_append]
      omega
termination_by sizeOf os

end

/-- `JSON.parse` recovers any number-free value from its serialization, for
any whitespace style of the printer. -/
theorem parseJson_printGo (pre : Nat → List Char) (pad : List Char)
    (hpre : ∀ n, (pre n).all isJsonWsB = true)
    (hpad : pad.all isJsonWsB = true) (v : Json)
    (hnf : Json.numFree v = true) :
    parseJson (printGo pre pad v 0) = some v := by
  unfold parseJson
  have hlen : Json.jsize v ≤ (printGo pre pad v 0).length + 1 := by
    have := jsize_le_print pre pad v 0 hnf
    omega
  have h := parse_print_rt pre pad hpre hpad v 0 [] []
    rfl ((printGo pre pad v 0).length + 1) hnf hlen
  rw [List.nil_append, List.append_nil] at h
  rw [h]
  simp

/-- Round trip of `JSON.parse` after compact `JSON.stringify`. -/
theorem parseJson_printCompact (v : Json) (hnf : Json.numFree v = true) :
    parseJson (printCompact v) = some v :=
  parseJson_printGo (fun _ => []) [] (fun _ => rfl) rfl v hnf

/-- Round trip of `JSON.parse` after `JSON.stringify(v, null, 2)`. -/
theorem parseJson_printPretty (v : Json) (hnf : Json.numFree v = true) :
    parseJson (printPretty v) = some v := by
  have hpre : ∀ n, (('\n' :: List.replicate (2 * n) ' ') : List Char).all isJsonWsB = true := by
    intro n
    rw [List.all_cons]
    have h2 : (List.replicate (2 * n) ' ').all isJsonWsB = true := by
      rw [List.all_eq_true]
      intro x hx
      rw [List.eq_of_mem_replicate hx]
      decide
    rw [h2]
    decide
  exact parseJson_printGo _ [' '] hpre rfl v hnf

/-! ## Number-freedom of everything the program serializes -/

theorem numFreeL_ofList_map_str (l : List (List Char)) :
    JsonList.numFreeL (JsonList.ofList (l.map Json.str)) = true := by
  induction l with
  | nil => rfl
  | cons x t ih => simp [JsonList.ofList, numFreeL_cons, numFree_str, ih]

theorem numFree_encodeProfile (p : CustomerProfile) :
    Json.numFree (encodeProfile p) = true := by
  simp [encodeProfile, numFree_obj, numFreeO_cons, numFreeO_nil, numFree_str,
    numFree_arr, numFreeL_ofList_map_str]

theorem numFree_exportData (now : List Char) (s : AppState)
    (p : CustomerProfile) : Json.numFree (exportData now s p) = true := by
  simp [exportData, numFree_obj, numFreeO_cons, numFreeO_nil, numFree_str,
    numFree_encodeProfile]

/-! ## Claim C8: the JSON export round trip -/

/-- Claim C8: with a profile held, the JSON exporter offers
`customer-profile.json` containing `JSON.stringify(exportData, null, 2)`;
re-parsing that exact text reproduces the document, and the document's
`businessInfo` and `customerProfile` decode to values equal to the in-memory
business inputs and profile at export time. -/
theorem json_export_roundtrip (now : List Char) (s : AppState)
    (p : CustomerProfile) (h : s.customerProfile = some p) :
    handleExportJSON now s =
      some ⟨"customer-profile.json".toList, printPretty (exportData now s p)⟩ ∧
    parseJson (printPretty (exportData now s p)) = some (exportData now s p) ∧
    (parseJson (printPretty (exportData now s p))).bind decodeExport =
      some (businessInfoOf s, p) := by
  have hparse := parseJson_printPretty (exportData now s p) (numFree_exportData now s p)
  refine ⟨by simp [handleExportJSON, h], hparse, ?_⟩
  rw [hparse, Option.some_bind, decodeExport_exportData]

/-- Witness for C8 at the sample Result state. -/
theorem json_export_roundtrip_witness :
    handleExportJSON ("2025-01-02".toList) sampleResult =
      some ⟨"customer-profile.json".toList,
        printPretty (exportData ("2025-01-02".toList) sampleResult sampleProfile)⟩ ∧
    parseJson (printPretty (exportData ("2025-01-02".toList) sampleResult sampleProfile)) =
      some (exportData ("2025-01-02".toList) sampleResult sampleProfile) ∧
    (parseJson (printPretty (exportData ("2025-01-02".toList) sampleResult
        sampleProfile))).bind decodeExport =
      some (businessInfoOf sampleResult, sampleProfile) :=
  json_export_roundtrip ("2025-01-02".toList) sampleResult sampleProfile rfl

/-! ## Claim C7: sequential saves accumulate in order, per user -/

theorem appendL_cons_left (x : Json) (xs l : JsonList) :
    JsonList.appendL (.cons x xs) l = .cons x (JsonList.appendL xs l) := rfl

theorem appendL_nil_right (l : JsonList) : JsonList.appendL l .nil = l := by
  cases l with
  | nil => rfl
  | cons x xs => rw [appendL_cons_left, appendL_nil_right xs]
termination_by sizeOf l

theorem appendL_assoc (a b c : JsonList) :
    JsonList.appendL (JsonList.appendL a b) c =
      JsonList.appendL a (JsonList.appendL b c) := by
  cases a with
  | nil => rfl
  | cons x xs => rw [appendL_cons_left, appendL_cons_left, appendL_cons_left,
      appendL_assoc xs b c]
termination_by sizeOf a

theorem lengthL_ofList (l : List Json) :
    JsonList.lengthL (JsonList.ofList l) = l.length := by
  induction l with
  | nil => rfl
  | cons x xs ih => simp [JsonList.ofList, JsonList.lengthL, ih]

/-- One sequential save scenario entry: the inputs and profile the wizard
holds at the moment Save Profile is clicked, plus the clock-derived
metadata. -/
structure SaveItem where
  meta : SaveMeta
  vision : List Char
  mission : List Char
  business : List Char
  target : List Char
  profile : CustomerProfile

/-- Put the wizard on the Result step holding the item's inputs and profile
(the state from which the component's `saveProfile` runs). -/
def withResult (it : SaveItem) (s : AppState) : AppState :=
  { s with step := 3, visionStatement := it.vision,
           missionStatement := it.mission, businessDescription := it.business,
           targetMarket := it.target, customerProfile := some it.profile }

/-- The `profileData` record `saveProfile` builds for a scenario item. -/
def encodeItem (it : SaveItem) : Json :=
  Json.obj (.cons ("id".toList) (Json.str it.meta.id)
    (.cons ("profileName".toList) (Json.str it.meta.profileName)
    (.cons ("visionStatement".toList) (Json.str it.vision)
    (.cons ("missionStatement".toList) (Json.str it.mission)
    (.cons ("businessDescription".toList) (Json.str it.business)
    (.cons ("targetMarket".toList) (Json.str it.target)
    (.cons ("customerProfile".toList) (encodeProfile it.profile)
    (.cons ("createdAt".toList) (Json.str it.meta.createdAt) .nil))))))))

theorem encodeRecord_withResult (it : SaveItem) (s : AppState) :
    encodeRecord it.meta (withResult it s) it.profile = encodeItem it := rfl

theorem numFree_encodeItem (it : SaveItem) :
    Json.numFree (encodeItem it) = true := by
  simp [encodeItem, numFree_obj, numFreeO_cons, numFreeO_nil, numFree_str,
    numFree_encodeProfile]

theorem numFreeL_ofList_items (items : List SaveItem) :
    JsonList.numFreeL (JsonList.ofList (items.map encodeItem)) = true := by
  induction items with
  | nil => rfl
  | cons it rest ih =>
      simp [JsonList.ofList, numFreeL_cons, numFree_encodeItem, ih]

/-- N sequential saves: fill the wizard with each item's result in turn and
run the component's `saveProfile`. -/
def runSaves (s : AppState) (items : List SaveItem) : AppState :=
  items.foldl (fun st it => saveProfile it.meta (withResult it st)) s

theorem saveProfile_withResult (it : SaveItem) (st : AppState) (l : JsonList)
    (hl : st.savedProfiles = Json.arr l) :
    saveProfile it.meta (withResult it st) =
      { withResult it st with
          savedProfiles := Json.arr (JsonList.appendL l
            (.cons (encodeItem it) .nil)),
          store := storeSet st.store (profilesKey st.userId)
            (printCompact (Json.arr (JsonList.appendL l
              (.cons (encodeItem it) .nil)))),
          isSaving := false } := by
  have hc : (withResult it st).customerProfile = some it.profile := rfl
  have hs : (withResult it st).savedProfiles = Json.arr l := hl
  unfold saveProfile
  rw [hc, hs]
  rfl

theorem runSaves_spec (items : List SaveItem) (s : AppState) (l : JsonList)
    (hl : s.savedProfiles = Json.arr l) :
    (runSaves s items).savedProfiles =
        Json.arr (JsonList.appendL l (JsonList.ofList (items.map encodeItem))) ∧
    (runSaves s items).userId = s.userId ∧
    (items = [] → (runSaves s items).store = s.store) ∧
    (items ≠ [] → (runSaves s items).store (profilesKey s.userId) =
        some (printCompact (Json.arr (JsonList.appendL l
          (JsonList.ofList (items.map encodeItem)))))) ∧
    (∀ key, key ≠ profilesKey s.userId →
        (runSaves s items).store key = s.store key) := by
  induction items generalizing s l with
  | nil =>
      refine ⟨?_, rfl, fun _ => rfl, fun h => absurd rfl h, fun _ _ => rfl⟩
      simp [runSaves, JsonList.ofList, appendL_nil_right, hl]
  | cons it rest ih =>
      have hstep := saveProfile_withResult it s l hl
      have hrun : runSaves s (it :: rest) =
          runSaves (saveProfile it.meta (withResult it s)) rest := rfl
      rw [hrun, hstep]
      have hsp : ({ withResult it s with
          savedProfiles := Json.arr (JsonList.appendL l
            (.cons (encodeItem it) .nil)),
          store := storeSet s.store (profilesKey s.userId)
            (printCompact (Json.arr (JsonList.appendL l
              (.cons (encodeItem it) .nil)))),
          isSaving := false } : AppState).savedProfiles =
          Json.arr (JsonList.appendL l (.cons (encodeItem it) .nil)) := rfl
      obtain ⟨ih1, ih2, ih3, ih4, ih5⟩ := ih _ _ hsp
      have hcomb : JsonList.appendL (JsonList.appendL l (.cons (encodeItem it) .nil))
          (JsonList.ofList (rest.map encodeItem)) =
          JsonList.appendL l (JsonList.ofList ((it :: rest).map encodeItem)) := by
        rw [appendL_assoc]
        rfl
      have huid : ({ withResult it s with
          savedProfiles := Json.arr (JsonList.appendL l
            (.cons (encodeItem it) .nil)),
          store := storeSet s.store (profilesKey s.userId)
            (printCompact (Json.arr (JsonList.appendL l
              (.cons (encodeItem it) .nil)))),
          isSaving := false } : AppState).userId = s.userId := rfl
      refine ⟨?_, ?_, ?_, ?_, ?_⟩
      · rw [ih1, hcomb]
      · rw [ih2]; exact huid
      · intro h; exact absurd h (List.cons_ne_nil it rest)
      · intro _
        rcases eq_or_ne rest [] with hre | hre
        · subst hre
          rw [ih3 rfl]
          simp only [storeSet, if_pos]
          rfl
        · have h4 := ih4 hre
          rw [huid] at h4
          rw [h4, hcomb]
      · intro key hk
        have h5 := ih5 key (by rw [huid]; exact hk)
        rw [h5]
        simp [storeSet, hk]

theorem profilesKey_inj {a b : List Char} (h : profilesKey a = profilesKey b) :
    a = b := by
  unfold profilesKey at h
  exact List.append_cancel_left h

/-- Claim C7: starting from a fresh user with no stored entry, N sequential
saves leave the store holding exactly the N records in save order: a fresh
mount's `load(userId)` returns them all (as the JSON array of the encoded
records, whose length is N), and a save performed under a different user
identity does not change the first user's entry. -/
theorem sequential_saves_accumulate (uid : List Char) (store0 : Store)
    (items : List SaveItem) (h0 : store0 (profilesKey uid) = none) :
    (loadSavedProfiles (initState uid
        (runSaves (initState uid store0) items).store)).savedProfiles =
      Json.arr (JsonList.ofList (items.map encodeItem)) ∧
    JsonList.lengthL (JsonList.ofList (items.map encodeItem)) = items.length ∧
    (∀ (uid2 : List Char) (it2 : SaveItem), uid2 ≠ uid →
      (saveProfile it2.meta (withResult it2 (initState uid2
          (runSaves (initState uid store0) items).store))).store (profilesKey uid) =
        (runSaves (initState uid store0) items).store (profilesKey uid)) := by
  obtain ⟨hsp, huid, hnil, hcons, hframe⟩ :=
    runSaves_spec items (initState uid store0) .nil rfl
  have huid0 : (initState uid store0).userId = uid := rfl
  rw [huid0] at hcons
  refine ⟨?_, by rw [lengthL_ofList, List.length_map], ?_⟩
  · rcases eq_or_ne items [] with hit | hit
    · subst hit
      have hs : (runSaves (initState uid store0) []).store = store0 := hnil rfl
      rw [hs]
      unfold loadSavedProfiles
      rw [show (initState uid store0).store
            (profilesKey (initState uid store0).userId) =
          store0 (profilesKey uid) from rfl, h0]
      rfl
    · have hstore := hcons hit
      have hred : JsonList.appendL .nil (JsonList.ofList (items.map encodeItem)) =
          JsonList.ofList (items.map encodeItem) := rfl
      rw [hred] at hstore
      unfold loadSavedProfiles
      rw [show (initState uid (runSaves (initState uid store0) items).store).store
            (profilesKey (initState uid
              (runSaves (initState uid store0) items).store).userId) =
          (runSaves (initState uid store0) items).store (profilesKey uid) from rfl]
      have hpj : parseJson (printCompact (Json.arr (JsonList.ofList
          (items.map encodeItem)))) =
          some (Json.arr (JsonList.ofList (items.map encodeItem))) :=
        parseJson_printCompact _
          (by rw [numFree_arr]; exact numFreeL_ofList_items items)
      rw [hstore]
      simp [hpj]
  · intro uid2 it2 hne
    have hsave := saveProfile_withResult it2
      (initState uid2 (runSaves (initState uid store0) items).store) .nil rfl
    rw [hsave]
    have hk : ¬(profilesKey uid = profilesKey
        (initState uid2 (runSaves (initState uid store0) items).store).userId) := by
      intro hcontra
      exact hne (profilesKey_inj hcontra).symm
    simp only [storeSet]
    rw [if_neg hk]
    rfl

/-- A first sample save scenario item. -/
def sampleItem1 : SaveItem :=
  ⟨⟨"100".toList, "Profile A".toList, "2025-01-01".toList⟩,
   "v1".toList, "m1".toList, "b1".toList, "t1".toList, sampleProfile⟩

/-- A second sample save scenario item. -/
def sampleItem2 : SaveItem :=
  ⟨⟨"200".toList, "Profile B".toList, "2025-01-02".toList⟩,
   "v2".toList, "m2".toList, "b2".toList, "t2".toList, sampleProfile⟩

/-- Witness for C7 with two concrete saves on an empty store. -/
theorem sequential_saves_accumulate_witness :
    (loadSavedProfiles (initState ("u1".toList)
        (runSaves (initState ("u1".toList) emptyStore)
          [sampleItem1, sampleItem2]).store)).savedProfiles =
      Json.arr (JsonList.ofList ([sampleItem1, sampleItem2].map encodeItem)) ∧
    JsonList.lengthL (JsonList.ofList ([sampleItem1, sampleItem2].map encodeItem)) =
      ([sampleItem1, sampleItem2] : List SaveItem).length ∧
    (∀ (uid2 : List Char) (it2 : SaveItem), uid2 ≠ ("u1".toList) →
      (saveProfile it2.meta (withResult it2 (initState uid2
          (runSaves (initState ("u1".toList) emptyStore)
            [sampleItem1, sampleItem2]).store))).store (profilesKey ("u1".toList)) =
        (runSaves (initState ("u1".toList) emptyStore)
          [sampleItem1, sampleItem2]).store (profilesKey ("u1".toList))) :=
  sequential_saves_accumulate ("u1".toList) emptyStore [sampleItem1, sampleItem2] rfl

/-! ## Claim C6: loading stored values -/

/-- A store whose only entry for user `u1` holds `true`: valid JSON, but not
a serialized record sequence. -/
def corruptStore : Store :=
  storeSet emptyStore (profilesKey ("u1".toList)) ("true".toList)

/-- Counterexample to C6 as stated: for the stored value `true` (which
`JSON.parse` accepts), `loadSavedProfiles` puts the parsed value `true` into
`savedProfiles` — which is neither "the stored ordered sequence" (it is not
a sequence at all) nor an empty sequence, so malformed-but-parsable data is
not treated as absent. -/
theorem load_corrupt_counterexample :
    (loadSavedProfiles (initState ("u1".toList) corruptStore)).savedProfiles =
      Json.bool true ∧
    (∀ l : JsonList, Json.bool true ≠ Json.arr l) := by
  refine ⟨rfl, ?_⟩
  intro l h
  exact Json.noConfusion h

/-- Claim C6 (amended): `load` never throws; a missing entry or an entry on
which `JSON.parse` fails leaves the held sequence unchanged (hence empty on
a fresh mount), and an entry that parses is propagated verbatim into
`savedProfiles` — in particular a stored serialized sequence is returned
exactly, but a parsable non-sequence value is propagated as-is rather than
treated as absent. -/
theorem load_saved_profiles_amended (s : AppState) :
    (s.store (profilesKey s.userId) = none → loadSavedProfiles s = s) ∧
    (∀ raw, s.store (profilesKey s.userId) = some raw → parseJson raw = none →
      loadSavedProfiles s = s) ∧
    (∀ raw v, s.store (profilesKey s.userId) = some raw →
      parseJson raw = some v →
      loadSavedProfiles s = { s with savedProfiles := v }) ∧
    (∀ l, s.store (profilesKey s.userId) = some (printCompact (Json.arr l)) →
      JsonList.numFreeL l = true →
      loadSavedProfiles s = { s with savedProfiles := Json.arr l }) := by
  refine ⟨?_, ?_, ?_, ?_⟩
  · intro h; unfold loadSavedProfiles; rw [h]
  · intro raw h hp; unfold loadSavedProfiles; rw [h]; simp [hp]
  · intro raw v h hp; unfold loadSavedProfiles; rw [h]; simp [hp]
  · intro l h hnf
    unfold loadSavedProfiles
    have hpj := parseJson_printCompact (Json.arr l)
      (by rw [numFree_arr]; exact hnf)
    rw [h]
    simp [hpj]

/-- Witness for the amended C6: a missing entry and an unparsable entry both
leave a fresh mount's empty list unchanged without failure. -/
theorem load_saved_profiles_amended_witness :
    loadSavedProfiles (initState ("u1".toList) emptyStore) =
      initState ("u1".toList) emptyStore ∧
    loadSavedProfiles (initState ("u1".toList)
        (storeSet emptyStore (profilesKey ("u1".toList)) ("x".toList))) =
      initState ("u1".toList)
        (storeSet emptyStore (profilesKey ("u1".toList)) ("x".toList)) :=
  ⟨(load_saved_profiles_amended _).1 rfl,
   (load_saved_profiles_amended _).2.1 ("x".toList) rfl rfl⟩

end CPG
